import Mathlib

/-!
# jws-operator: the `webserver` controller package

A shallow embedding of `pkg/controller/webserver` (`helper.go`,
`kubernetes_controller.go`, `openshift_controller.go`) and the properties of its
probe parsing, its create-if-absent driver, its pod-status aggregation, its
defaults and the objects it generates for a custom resource.

Conventions of the embedding.

* A Go `string` is a Lean `String`.  Go indexes and compares strings by byte;
  every separator the source searches for (`"` and the space) is a one-byte
  ASCII character and UTF-8 preserves code-point order, so cutting and
  comparing by character is the same as cutting and comparing by byte.
* A Go `error` value is an `Option`: `none` is the `nil` error.
* A Go slice is a `List`; the `nil` slice and the empty slice are both `[]`.
* Calls to the logger are left out: they do not influence any returned value.
* A Go `map[string]string` is a function from keys to optional values.
* A Go pointer is an `Option`, `none` for `nil`.  A function that dereferences
  a pointer without a test returns an `Option`, `none` when the program stops
  on a `nil` pointer.
-/

/-! ## Go standard library: package `strings` -/

namespace strings

/-- Position of the first `sep` in `s`, or `-1` when there is none
(`strings.Index(s, sep)` for a one-byte `sep`), on the characters of `s`. -/
def indexChars (sep : Char) : List Char → Int
  | [] => -1
  | c :: cs =>
    if c = sep then 0
    else
      let r := indexChars sep cs
      if r = -1 then -1 else r + 1

/-- The call `strings.Index(s, sep)` for a one-byte separator. -/
def Index (s : String) (sep : Char) : Int :=
  indexChars sep s.data

/-- The pieces of `s` between the occurrences of `sep`
(`strings.Split(s, sep)` for a one-byte `sep`): one more piece than there are
separators, empty pieces included. -/
def splitChars (sep : Char) : List Char → List (List Char)
  | [] => [[]]
  | c :: cs =>
    if c = sep then [] :: splitChars sep cs
    else
      match splitChars sep cs with
      | [] => [[c]]
      | piece :: rest => (c :: piece) :: rest

/-- The call `strings.Split(s, sep)` for a one-byte separator. -/
def Split (s : String) (sep : Char) : List String :=
  (splitChars sep s.data).map String.mk

/-- The call `strings.Join(elems, sep)` for a one-byte separator, on characters. -/
def joinChars (sep : Char) : List (List Char) → List Char
  | [] => []
  | [piece] => piece
  | piece :: rest => piece ++ sep :: joinChars sep rest

/-- The predicate `unicode.IsSpace`: the white-space characters of the Go library. -/
def isSpace (c : Char) : Bool :=
  decide (c.toNat ∈ [9, 10, 11, 12, 13, 32, 133, 160, 5760, 8232, 8233, 8239, 8287, 12288])
    || (decide (8192 ≤ c.toNat) && decide (c.toNat ≤ 8202))

/-- The call `strings.Fields(s)` on characters: the maximal runs of non-white-space
characters of `s`, in order; `cur` is the run being read, reversed. -/
def fieldsAux : List Char → List Char → List (List Char)
  | [], cur => if cur = [] then [] else [cur.reverse]
  | c :: cs, cur =>
    if isSpace c then
      (if cur = [] then fieldsAux cs [] else cur.reverse :: fieldsAux cs [])
    else fieldsAux cs (c :: cur)

/-- The call `strings.Fields(s)`: the white-space separated words of `s`. -/
def Fields (s : String) : List String :=
  (fieldsAux s.data []).map String.mk

end strings

/-- The slice expression `s[lo:hi]` of a string. -/
def sliceString (s : String) (lo hi : Int) : String :=
  String.mk ((s.data.take hi.toNat).drop lo.toNat)

/-- The slice expression `s[lo:]` of a string. -/
def sliceStringFrom (s : String) (lo : Int) : String :=
  String.mk (s.data.drop lo.toNat)

/-! ## Kubernetes API types used by the probes -/

namespace corev1

/-- The type `corev1.ExecAction`. -/
structure ExecAction where
  Command : List String
  deriving DecidableEq

/-- The type `corev1.HTTPGetAction`; the port is the integer of `intstr.FromInt`. -/
structure HTTPGetAction where
  Path : String
  Port : Int
  deriving DecidableEq

/-- The type `corev1.Handler`: the fields the package sets, `nil` pointers as `none`. -/
structure Handler where
  Exec : Option ExecAction := none
  HTTPGet : Option HTTPGetAction := none
  deriving DecidableEq

/-- The type `corev1.Probe`; the thresholds stay at their zero values. -/
structure Probe where
  Handler : Handler
  deriving DecidableEq

end corev1

/-! ## `kubernetes_controller.go`: probes -/

/-- The double-quote character the probe script is searched for. -/
def dquote : Char := Char.ofNat 34

/-- The function `generateCustomProbe` of `kubernetes_controller.go`; the `webServer`
argument is not read by the function. -/
def generateCustomProbe (probeScript : String) : corev1.Probe :=
  let pos := strings.Index probeScript dquote
  let probeScriptSlice :=
    if pos ≠ -1 then
      strings.Split (sliceString probeScript 0 pos) ' ' ++ [sliceStringFrom probeScript pos]
    else
      strings.Split probeScript ' '
  { Handler := { Exec := some { Command := probeScriptSlice } } }

/-! ## Kubernetes API types used by the status aggregation -/

namespace corev1

/-- The constant `corev1.PodPending`. -/
def PodPending : String := "Pending"

/-- The constant `corev1.PodRunning`. -/
def PodRunning : String := "Running"

/-- The type `corev1.PodStatus`: the fields the package reads.  `Phase` is a
`corev1.PodPhase`, a string type. -/
structure PodStatus where
  Phase : String
  PodIP : String
  deriving DecidableEq

/-- The type `corev1.Pod`: `Name` is `ObjectMeta.Name`. -/
structure Pod where
  Name : String
  Status : PodStatus
  deriving DecidableEq

end corev1

namespace webserversv1alpha1

/-- Modelled from the spec: the reduced pod state of the custom resource's
status (`PodStatePending`, `PodStateActive`, `PodStateFailed` of
`pkg/apis/webservers/v1alpha1`, which is not among the sources): "lifecycle
phase (raw platform enum folded into `{Pending, Active, Failed}`". -/
inductive PodState where
  | PodStatePending
  | PodStateActive
  | PodStateFailed
  deriving DecidableEq

/-- Modelled from the spec: the per-pod record of the reported status
(`PodStatus` of `pkg/apis/webservers/v1alpha1`, which is not among the
sources): "ordered sequence of `{name, ip, state}` per pod". -/
structure PodStatus where
  Name : String
  PodIP : String
  State : PodState
  deriving DecidableEq

end webserversv1alpha1

open webserversv1alpha1 (PodState)

/-! ## `kubernetes_controller.go`: pod status -/

/-- One iteration of the loop of `getPodStatus`: the state is the pair
`(podStatuses, requeue)`. -/
def getPodStatusStep (acc : List webserversv1alpha1.PodStatus × Bool) (pod : corev1.Pod) :
    List webserversv1alpha1.PodStatus × Bool :=
  let podState :=
    if pod.Status.Phase = corev1.PodPending then PodState.PodStatePending
    else if pod.Status.Phase = corev1.PodRunning then PodState.PodStateActive
    else PodState.PodStateFailed
  let podStatuses := acc.1 ++ [{ Name := pod.Name, PodIP := pod.Status.PodIP, State := podState }]
  let requeue := if pod.Status.PodIP = "" then true else acc.2
  (podStatuses, requeue)

/-- The function `getPodStatus` of `kubernetes_controller.go`: the loop over `pods`
starting from the `nil` slice and `requeue = false`. -/
def getPodStatus (pods : List corev1.Pod) : List webserversv1alpha1.PodStatus × Bool :=
  pods.foldl getPodStatusStep ([], false)

/-! ## Go standard library: package `sort` -/

namespace sort

/-- The inner loop of the library's `insertionSort`,
`for j := i; j > a && less(j, j-1); j-- { swap(j, j-1) }`: the element `x`
moves left past every element it is less than.  The sorted part is held
reversed, its last element first. -/
def sink {α : Type} (less : α → α → Bool) (x : α) : List α → List α
  | [] => [x]
  | y :: rest => if less x y then y :: sink less x rest else x :: y :: rest

/-- The call `sort.SliceStable(x, less)`.  The library sorts blocks by insertion sort and
merges them with a stable merge; a stable sort has one possible result, the
one insertion sort computes, so the whole is presented as insertion sort. -/
def SliceStable {α : Type} (x : List α) (less : α → α → Bool) : List α :=
  (x.foldl (fun sorted e => sink less e sorted) []).reverse

end sort

/-- Go's `a < b` on strings, as a Boolean. -/
def stringLess (a b : String) : Bool :=
  decide (a.data < b.data)

/-! ## `helper.go`: ordering of the pod list -/

/-- The function `sortPodListByName` of `helper.go`, on the items of the pod list. -/
def sortPodListByName (items : List corev1.Pod) : List corev1.Pod :=
  sort.SliceStable items (fun pi pj => stringLess pi.Name pj.Name)

/-! ## The platform client, as far as the package uses it -/

namespace errors

/-- An error returned by the platform client.  The package only inspects the
status reason, through `errors.IsNotFound` and `errors.IsAlreadyExists`; an error
that is not an API status (network, authentication) has the empty reason. -/
structure APIError where
  Reason : String
  Message : String
  deriving DecidableEq

/-- The constant `metav1.StatusReasonNotFound`. -/
def StatusReasonNotFound : String := "NotFound"

/-- The constant `metav1.StatusReasonAlreadyExists`. -/
def StatusReasonAlreadyExists : String := "AlreadyExists"

/-- The call `errors.IsNotFound(err)`; `false` on the `nil` error. -/
def IsNotFound (err : Option APIError) : Bool :=
  match err with
  | none => false
  | some e => decide (e.Reason = StatusReasonNotFound)

/-- The call `errors.IsAlreadyExists(err)`; `false` on the `nil` error. -/
def IsAlreadyExists (err : Option APIError) : Bool :=
  match err with
  | none => false
  | some e => decide (e.Reason = StatusReasonAlreadyExists)

end errors

namespace types

/-- The type `types.NamespacedName`. -/
structure NamespacedName where
  Name : String
  Namespace : String
  deriving DecidableEq

end types

namespace ctrl

/-- The type `ctrl.Result` (the same type as `reconcile.Result`); `Result{}` is the
default value. -/
structure Result where
  Requeue : Bool := false
  RequeueAfter : Int := 0
  deriving DecidableEq

end ctrl

/-- A request sent to the platform through the client. -/
inductive APICall (Obj : Type) where
  | Get (key : types.NamespacedName)
  | Create (obj : Obj)
  | Update (obj : Obj)
  deriving DecidableEq

/-- The capability the package has on the platform (`client.Client`), over a
cluster state `σ` and objects `Obj`.

* `Get cluster key obj` reads the object of the kind of `obj` stored under
  `key`; a read does not change the cluster.  On success the stored object is
  written into `obj`, on failure `obj` is left as it was.
* `Create cluster obj` asks the platform to store `obj` and gives the cluster
  afterwards. -/
structure Client (σ Obj : Type) where
  Get : σ → types.NamespacedName → Obj → Except errors.APIError Obj
  Create : σ → Obj → σ × Except errors.APIError Obj

/-- The `err` value of a client call. -/
def errOf {Obj : Type} (r : Except errors.APIError Obj) : Option errors.APIError :=
  match r with
  | .ok _ => none
  | .error e => some e

/-- The object behind the pointer passed to a client call, after the call. -/
def objAfter {Obj : Type} (r : Except errors.APIError Obj) (before : Obj) : Obj :=
  match r with
  | .ok o => o
  | .error _ => before

/-- What a call of `createResource` leaves behind: the two returned values,
the object behind `resource`, the cluster, and the requests that were sent, in
order. -/
structure CreateOutcome (σ Obj : Type) where
  result : ctrl.Result
  err : Option errors.APIError
  resource : Obj
  cluster : σ
  calls : List (APICall Obj)

/-! ## `helper.go`: the create-if-absent driver -/

/-- The function `createResource` of `helper.go`.  The `webServer` argument is not read by
the function and `resourceKind` only appears in log lines. -/
def createResource {σ Obj : Type} (client : Client σ Obj) (cluster : σ) (resource : Obj)
    (_resourceKind : String) (resourceName : String) (resourceNamespace : String) :
    CreateOutcome σ Obj :=
  let key : types.NamespacedName := { Name := resourceName, Namespace := resourceNamespace }
  let got := client.Get cluster key resource
  let err := errOf got
  let resource := objAfter got resource
  if err ≠ none ∧ errors.IsNotFound err = true then
    -- Create a new resource
    let created := client.Create cluster resource
    let err := errOf created.2
    if err ≠ none ∧ errors.IsAlreadyExists err = false then
      { result := {}, err := err, resource := objAfter created.2 resource,
        cluster := created.1, calls := [APICall.Get key, APICall.Create resource] }
    else
      -- Resource created successfully - return and requeue
      { result := { Requeue := true }, err := err, resource := objAfter created.2 resource,
        cluster := created.1, calls := [APICall.Get key, APICall.Create resource] }
  else if err ≠ none then
    { result := {}, err := err, resource := resource, cluster := cluster,
      calls := [APICall.Get key] }
  else
    { result := {}, err := err, resource := resource, cluster := cluster,
      calls := [APICall.Get key] }

/-! ## A concrete platform for the examples -/

/-- A stored manifest: kind, identity and content. -/
structure Manifest where
  Kind : String
  Namespace : String
  Name : String
  Content : String
  deriving DecidableEq

/-- A cluster whose reads are served from a cache that may lag behind the
store, as the controller runtime does; `readFault` is a failure of the read
path. -/
structure FakeCluster where
  cache : List Manifest
  store : List Manifest
  readFault : Option errors.APIError
  deriving DecidableEq

/-- Whether `m` is the object of the kind of `obj` under `key`. -/
def Manifest.isAt (key : types.NamespacedName) (obj m : Manifest) : Bool :=
  decide (m.Kind = obj.Kind ∧ m.Namespace = key.Namespace ∧ m.Name = key.Name)

/-- The client of a `FakeCluster`: reads look into the cache, `Create` appends
to the store unless the identity is taken. -/
def fakeClient : Client FakeCluster Manifest where
  Get cluster key obj :=
    match cluster.readFault with
    | some e => .error e
    | none =>
      match cluster.cache.find? (Manifest.isAt key obj) with
      | some m => .ok m
      | none => .error { Reason := errors.StatusReasonNotFound, Message := "not found" }
  Create cluster obj :=
    if cluster.store.any (Manifest.isAt { Name := obj.Name, Namespace := obj.Namespace } obj) then
      (cluster, .error { Reason := errors.StatusReasonAlreadyExists, Message := "already exists" })
    else
      ({ cluster with cache := cluster.cache ++ [obj], store := cluster.store ++ [obj] }, .ok obj)

/-- The routing service of the application `demo`. -/
def demoService : Manifest :=
  { Kind := "Service", Namespace := "prod", Name := "demo", Content := "port 8080" }

/-! ## Ordinals of pod names -/

/-- The decimal number after the last `-` of a pod name: the ordinal of
`<podname>-<number>`. -/
def podOrdinal (name : String) : Nat :=
  ((name.data.reverse.takeWhile (fun c => c ≠ '-')).reverse).foldl
    (fun n c => 10 * n + (c.toNat - 48)) 0

/-! ## Go maps with string keys -/

/-- A Go `map[string]string`: the value under each key, `none` for a key the
map does not hold.  The `nil` map and the empty map are both the map without
keys. -/
def StringMap : Type := String → Option String

namespace StringMap

/-- The map without keys. -/
def empty : StringMap := fun _ => none

/-- The assignment `m[key] = value`. -/
def set (m : StringMap) (key value : String) : StringMap :=
  fun k => if k = key then some value else m k

/-- The loop `for k, v := range src { dst[k] = v }`.  Each key of `src` is
written once, so the order of the iteration does not show in the result. -/
def assignAll (dst src : StringMap) : StringMap :=
  fun k =>
    match src k with
    | some v => some v
    | none => dst k

end StringMap

/-! ## The custom resource -/

namespace webserversv1alpha1

/-- Modelled from the spec: the health-check overrides of the custom resource
(`WebServerHealthCheckSpec` of `pkg/apis/webservers/v1alpha1`, which is not
among the sources): "health-check overrides (liveness/readiness probe scripts,
optional)". -/
structure WebServerHealthCheckSpec where
  ServerReadinessScript : String
  ServerLivenessScript : String
  deriving DecidableEq

/-- Modelled from the spec: the builder of a web archive (`Builder` of the
web application, declared in `pkg/apis/webservers/v1alpha1`, which is not among
the sources): "builder{image, buildScript?}". -/
structure BuilderSpec where
  Image : String
  ApplicationBuildScript : String
  deriving DecidableEq

/-- Modelled from the spec: the web archive of a prebuilt image (`WebApp`,
declared in `pkg/apis/webservers/v1alpha1`, which is not among the sources):
"optionalWebArchive{name, deployPath, sizeLimit, builder{image, buildScript?},
sourceRepositoryURL, ref, contextDir}". -/
structure WebAppSpec where
  Name : String
  SourceRepositoryURL : String
  SourceRepositoryRef : String
  SourceRepositoryContextDir : String
  DeployPath : String
  ApplicationSizeLimit : String
  Builder : BuilderSpec
  deriving DecidableEq

/-- Modelled from the spec: the prebuilt-image source (`WebImage`, declared in
`pkg/apis/webservers/v1alpha1`, which is not among the sources):
"PrebuiltImage{applicationImage, optionalWebArchive{...}}"; a `nil` pointer is
`none`. -/
structure WebImageSpec where
  ApplicationImage : String
  WebApp : Option WebAppSpec
  WebServerHealthCheck : Option WebServerHealthCheckSpec
  deriving DecidableEq

/-- Modelled from the spec: the optional parameters of a source build
(`WebSourcesParams`, declared in `pkg/apis/webservers/v1alpha1`, which is not
among the sources): "webhookSecrets?" and the "optional
`MAVEN_MIRROR_URL`/`ARTIFACT_DIR` build environment variables". -/
structure WebSourcesParamsSpec where
  MavenMirrorURL : String
  ArtifactDir : String
  GenericWebhookSecret : String
  GithubWebhookSecret : String
  deriving DecidableEq

/-- Modelled from the spec: the sources of a build pipeline (`WebSources`,
declared in `pkg/apis/webservers/v1alpha1`, which is not among the sources):
"sourceRepositoryURL, ref, contextDir". -/
structure WebSourcesSpec where
  SourceRepositoryURL : String
  SourceRepositoryRef : String
  ContextDir : String
  WebSourcesParams : Option WebSourcesParamsSpec
  deriving DecidableEq

/-- Modelled from the spec: the build-pipeline source (`WebImageStream`,
declared in `pkg/apis/webservers/v1alpha1`, which is not among the sources):
"BuildPipeline{sourceRepositoryURL, ref, contextDir, imageStreamName,
imageStreamNamespace, webhookSecrets?}". -/
structure WebImageStreamSpec where
  ImageStreamName : String
  ImageStreamNamespace : String
  WebSources : Option WebSourcesSpec
  WebServerHealthCheck : Option WebServerHealthCheckSpec
  deriving DecidableEq

/-- Modelled from the spec: the specification of the custom resource
(`WebServerSpec` of `pkg/apis/webservers/v1alpha1`, which is not among the
sources): "application name; one of two mutually exclusive image sources;
health-check overrides; a boolean enabling session-clustering". -/
structure WebServerSpec where
  ApplicationName : String
  UseSessionClustering : Bool
  WebImage : Option WebImageSpec
  WebImageStream : Option WebImageStreamSpec
  deriving DecidableEq

/-- Modelled from the spec: the custom resource (`WebServer` of
`pkg/apis/webservers/v1alpha1`, which is not among the sources), with the
metadata the package reads: name, namespace, UID and "arbitrary extra labels". -/
structure WebServer where
  Name : String
  Namespace : String
  UID : String
  Labels : StringMap
  Spec : WebServerSpec

end webserversv1alpha1

open webserversv1alpha1 (WebServer WebServerHealthCheckSpec)

/-! ## Kubernetes API types used by the generated objects -/

namespace metav1

/-- The type `metav1.TypeMeta`. -/
structure TypeMeta where
  APIVersion : String := ""
  Kind : String := ""
  deriving DecidableEq

/-- The type `metav1.OwnerReference`. -/
structure OwnerReference where
  APIVersion : String
  Kind : String
  Name : String
  UID : String
  Controller : Bool
  BlockOwnerDeletion : Bool
  deriving DecidableEq

/-- The type `metav1.ObjectMeta`: the fields the package sets. -/
structure ObjectMeta where
  Name : String
  Namespace : String
  Labels : StringMap
  Annotations : StringMap := StringMap.empty
  OwnerReferences : List OwnerReference := []

/-- The type `metav1.LabelSelector`. -/
structure LabelSelector where
  MatchLabels : StringMap

end metav1

namespace runtime

/-- The group, version and kind under which a type is registered. -/
structure GroupVersionKind where
  APIVersion : String
  Kind : String
  deriving DecidableEq

/-- The part of `runtime.Scheme` the package depends on: the registration of
the `WebServer` type, `none` when the scheme does not know the type. -/
structure Scheme where
  WebServerKind : Option GroupVersionKind
  deriving DecidableEq

end runtime

namespace controllerutil

/-- The call `controllerutil.SetControllerReference(owner, object, scheme)` on the
metadata of a freshly generated object, which has no owner yet: the custom
resource becomes the controlling owner.  When the scheme does not know the type
of the owner the library returns an error, which the package drops, and the
object is left as it was. -/
def SetControllerReference (owner : WebServer) (object : metav1.ObjectMeta)
    (scheme : runtime.Scheme) : metav1.ObjectMeta :=
  match scheme.WebServerKind with
  | none => object
  | some gvk =>
    { object with
      OwnerReferences := object.OwnerReferences ++
        [{ APIVersion := gvk.APIVersion, Kind := gvk.Kind, Name := owner.Name, UID := owner.UID,
           Controller := true, BlockOwnerDeletion := true }] }

end controllerutil

namespace resource

/-- The type `resource.Quantity`, by its text. -/
structure Quantity where
  text : String
  deriving DecidableEq

end resource

namespace corev1

/-- The constant `corev1.ProtocolTCP`. -/
def ProtocolTCP : String := "TCP"

/-- The type `corev1.EnvVar`. -/
structure EnvVar where
  Name : String
  Value : String
  deriving DecidableEq

/-- The type `corev1.ContainerPort`. -/
structure ContainerPort where
  Name : String
  ContainerPort : Int
  Protocol : String
  deriving DecidableEq

/-- The type `corev1.VolumeMount`. -/
structure VolumeMount where
  Name : String
  MountPath : String
  SubPath : String := ""
  ReadOnly : Bool := false
  deriving DecidableEq

/-- The type `corev1.PersistentVolumeClaimVolumeSource`. -/
structure PersistentVolumeClaimVolumeSource where
  ClaimName : String
  ReadOnly : Bool := false
  deriving DecidableEq

/-- The type `corev1.ConfigMapVolumeSource`: `Name` is the name of its
`LocalObjectReference`. -/
structure ConfigMapVolumeSource where
  Name : String
  deriving DecidableEq

/-- The type `corev1.VolumeSource`: the sources the package uses. -/
structure VolumeSource where
  PersistentVolumeClaim : Option PersistentVolumeClaimVolumeSource := none
  ConfigMap : Option ConfigMapVolumeSource := none
  deriving DecidableEq

/-- The type `corev1.Volume`. -/
structure Volume where
  Name : String
  VolumeSource : VolumeSource
  deriving DecidableEq

/-- The type `corev1.Container`: the fields the package sets. -/
structure Container where
  Name : String
  Image : String
  Command : List String := []
  Args : List String := []
  ImagePullPolicy : String := ""
  ReadinessProbe : Option Probe := none
  LivenessProbe : Option Probe := none
  Ports : List ContainerPort := []
  Env : List EnvVar := []
  VolumeMounts : List VolumeMount := []
  deriving DecidableEq

/-- The type `corev1.PodSpec`: the fields the package sets. -/
structure PodSpec where
  TerminationGracePeriodSeconds : Option Int := none
  RestartPolicy : String := ""
  Containers : List Container
  Volumes : List Volume := []
  deriving DecidableEq

/-- The type `corev1.PodTemplateSpec`. -/
structure PodTemplateSpec where
  ObjectMeta : metav1.ObjectMeta
  Spec : PodSpec

/-- The type `corev1.Pod` as the package writes it, with metadata and
specification; `corev1.Pod` above is the view the status aggregation reads. -/
structure PodManifest where
  TypeMeta : metav1.TypeMeta := {}
  ObjectMeta : metav1.ObjectMeta
  Spec : PodSpec

/-- The type `corev1.ServicePort`; the target port is the integer of
`intstr.FromInt`. -/
structure ServicePort where
  Name : String
  Port : Int
  TargetPort : Int
  deriving DecidableEq

/-- The type `corev1.ServiceSpec`: the fields the package sets. -/
structure ServiceSpec where
  ClusterIP : String := ""
  Ports : List ServicePort
  Selector : StringMap

/-- The type `corev1.Service`. -/
structure Service where
  TypeMeta : metav1.TypeMeta
  ObjectMeta : metav1.ObjectMeta
  Spec : ServiceSpec

/-- The type `corev1.ConfigMap`. -/
structure ConfigMap where
  TypeMeta : metav1.TypeMeta
  ObjectMeta : metav1.ObjectMeta
  Data : StringMap

/-- The type `corev1.PersistentVolumeClaimSpec`: the access modes and the
`storage` entry of the requested resources. -/
structure PersistentVolumeClaimSpec where
  AccessModes : List String
  RequestsStorage : resource.Quantity
  deriving DecidableEq

/-- The type `corev1.PersistentVolumeClaim`. -/
structure PersistentVolumeClaim where
  TypeMeta : metav1.TypeMeta
  ObjectMeta : metav1.ObjectMeta
  Spec : PersistentVolumeClaimSpec

/-- The type `corev1.ObjectReference`: the fields the package sets. -/
structure ObjectReference where
  Kind : String
  Namespace : String := ""
  Name : String
  deriving DecidableEq

end corev1

namespace rbac

/-- The type `rbac.RoleRef`. -/
structure RoleRef where
  APIGroup : String
  Kind : String
  Name : String
  deriving DecidableEq

/-- The type `rbac.Subject`: the fields the package sets. -/
structure Subject where
  Kind : String
  Name : String
  deriving DecidableEq

/-- The type `rbac.RoleBinding`. -/
structure RoleBinding where
  TypeMeta : metav1.TypeMeta
  ObjectMeta : metav1.ObjectMeta
  RoleRef : RoleRef
  Subjects : List Subject

end rbac

namespace kbappsv1

/-- The constant `kbappsv1.RecreateDeploymentStrategyType`. -/
def RecreateDeploymentStrategyType : String := "Recreate"

/-- The type `kbappsv1.DeploymentSpec`: the fields the package sets; `Strategy`
is the type of the deployment strategy. -/
structure DeploymentSpec where
  Strategy : String
  Replicas : Option Int
  Selector : Option metav1.LabelSelector
  Template : corev1.PodTemplateSpec

/-- The type `kbappsv1.Deployment`. -/
structure Deployment where
  TypeMeta : metav1.TypeMeta
  ObjectMeta : metav1.ObjectMeta
  Spec : DeploymentSpec

end kbappsv1

/-! ## `kubernetes_controller.go`: the generated objects -/

/-- The reconciler `ReconcileWebServer`: the scheme and the choice of the
cluster discovery (`useKUBEPing`); its client is passed to the functions that
call the platform. -/
structure ReconcileWebServer where
  scheme : runtime.Scheme
  useKUBEPing : Bool
  deriving DecidableEq

/-- The function `generateObjectMeta` of `kubernetes_controller.go`. -/
def generateObjectMeta (webServer : WebServer) (name : String) : metav1.ObjectMeta :=
  { Name := name,
    Namespace := webServer.Namespace,
    Labels := StringMap.empty.set "application" webServer.Spec.ApplicationName }

/-- The function `generateRoutingService` of `kubernetes_controller.go`. -/
def generateRoutingService (r : ReconcileWebServer) (webServer : WebServer) : corev1.Service :=
  let service : corev1.Service :=
    { TypeMeta := { APIVersion := "apps/v1", Kind := "Service" },
      ObjectMeta := generateObjectMeta webServer webServer.Spec.ApplicationName,
      Spec :=
        { Ports := [{ Name := "ui", Port := 8080, TargetPort := 8080 }],
          Selector := (StringMap.empty.set "deploymentConfig" webServer.Spec.ApplicationName).set
            "WebServer" webServer.Name } }
  { service with
    ObjectMeta := controllerutil.SetControllerReference webServer service.ObjectMeta r.scheme }

/-- The function `generateServiceForDNS` of `kubernetes_controller.go`. -/
def generateServiceForDNS (r : ReconcileWebServer) (webServer : WebServer) : corev1.Service :=
  let service : corev1.Service :=
    { TypeMeta := { APIVersion := "apps/v1", Kind := "Service" },
      ObjectMeta := generateObjectMeta webServer ("webserver-" ++ webServer.Name),
      Spec :=
        { ClusterIP := "None",
          Ports := [{ Name := "http", Port := 8080, TargetPort := 8080 }],
          Selector := StringMap.empty.set "application" webServer.Spec.ApplicationName } }
  { service with
    ObjectMeta := controllerutil.SetControllerReference webServer service.ObjectMeta r.scheme }

/-- The function `generateRoleBinding` of `kubernetes_controller.go`. -/
def generateRoleBinding (r : ReconcileWebServer) (webServer : WebServer) : rbac.RoleBinding :=
  let rolebinding : rbac.RoleBinding :=
    { TypeMeta := { APIVersion := "rbac.authorization.k8s.io/v1beta", Kind := "RoleBinding" },
      ObjectMeta := generateObjectMeta webServer ("webserver-" ++ webServer.Name),
      RoleRef := { APIGroup := "rbac.authorization.k8s.io", Kind := "ClusterRole", Name := "view" },
      Subjects := [{ Kind := "ServiceAccount", Name := "default" }] }
  { rolebinding with
    ObjectMeta := controllerutil.SetControllerReference webServer rolebinding.ObjectMeta r.scheme }

/-- The function `generateCommandForServerXml` of `kubernetes_controller.go`: the
shell script that patches `server.xml`, under the key `test.sh`. -/
def generateCommandForServerXml (r : ReconcileWebServer) : StringMap :=
  let cmd := StringMap.empty
  if r.useKUBEPing then
    cmd.set "test.sh"
      ("FILE=`find /opt -name server.xml`\n" ++
      "grep -q MembershipProvider $\x7bFILE\x7d\n" ++
      "if [ $? -ne 0 ]; then\n" ++
      "  sed -i '/cluster.html/a        <Cluster className=\"org.apache.catalina.ha.tcp.SimpleTcpCluster\" channelSendOptions=\"6\">\\n <Channel className=\"org.apache.catalina.tribes.group.GroupChannel\">\\n <Membership className=\"org.apache.catalina.tribes.membership.cloud.CloudMembershipService\" membershipProviderClassName=\"org.apache.catalina.tribes.membership.cloud.KubernetesMembershipProvider\"/>\\n </Channel>\\n </Cluster>\\n' $\x7bFILE\x7d\n" ++
      "fi\n")
  else
    cmd.set "test.sh"
      ("FILE=`find /opt -name server.xml`\n" ++
      "grep -q MembershipProvider $\x7bFILE\x7d\n" ++
      "if [ $? -ne 0 ]; then\n" ++
      "  sed -i '/cluster.html/a        <Cluster className=\"org.apache.catalina.ha.tcp.SimpleTcpCluster\" channelSendOptions=\"6\">\\n <Channel className=\"org.apache.catalina.tribes.group.GroupChannel\">\\n <Membership className=\"org.apache.catalina.tribes.membership.cloud.CloudMembershipService\" membershipProviderClassName=\"org.apache.catalina.tribes.membership.cloud.DNSMembershipProvider\"/>\\n </Channel>\\n </Cluster>\\n' $\x7bFILE\x7d\n" ++
      "fi\n")

/-- The function `generateConfigMapForDNS` of `kubernetes_controller.go`. -/
def generateConfigMapForDNS (r : ReconcileWebServer) (webServer : WebServer) : corev1.ConfigMap :=
  let cmap : corev1.ConfigMap :=
    { TypeMeta := { APIVersion := "apps/v1", Kind := "ConfigMap" },
      ObjectMeta := generateObjectMeta webServer ("webserver-" ++ webServer.Name),
      Data := generateCommandForServerXml r }
  { cmap with
    ObjectMeta := controllerutil.SetControllerReference webServer cmap.ObjectMeta r.scheme }

/-- The function `generatePersistentVolumeClaim` of `kubernetes_controller.go`.
`MustParse` is `resource.MustParse` of the Kubernetes library, which stops the
program on a text that is no quantity; `none` is the program stopped, on that
or on the dereference of an absent web archive. -/
def generatePersistentVolumeClaim (MustParse : String → Option resource.Quantity)
    (r : ReconcileWebServer) (webServer : WebServer) : Option corev1.PersistentVolumeClaim := do
  let webImage ← webServer.Spec.WebImage
  let webApp ← webImage.WebApp
  let storage ← MustParse webApp.ApplicationSizeLimit
  let pvc : corev1.PersistentVolumeClaim :=
    { TypeMeta := { APIVersion := "k8s.io/api/apps/v1", Kind := "PersistentVolumeClaimVolumeSource" },
      ObjectMeta := generateObjectMeta webServer webServer.Spec.ApplicationName,
      Spec := { AccessModes := ["ReadWriteOnce"], RequestsStorage := storage } }
  pure { pvc with
    ObjectMeta := controllerutil.SetControllerReference webServer pvc.ObjectMeta r.scheme }

/-- The function `generateBuildPod` of `kubernetes_controller.go`; `none` is the
program stopped on the dereference of an absent web archive. -/
def generateBuildPod (r : ReconcileWebServer) (webServer : WebServer) :
    Option corev1.PodManifest := do
  let name := webServer.Spec.ApplicationName ++ "-build"
  let objectMeta := generateObjectMeta webServer name
  let objectMeta := { objectMeta with Labels := objectMeta.Labels.set "WebServer" webServer.Name }
  let terminationGracePeriodSeconds : Int := 60
  let webImage ← webServer.Spec.WebImage
  let webApp ← webImage.WebApp
  let pod : corev1.PodManifest :=
    { ObjectMeta := objectMeta,
      Spec :=
        { TerminationGracePeriodSeconds := some terminationGracePeriodSeconds,
          RestartPolicy := "OnFailure",
          Volumes :=
            [{ Name := "app-volume",
               VolumeSource :=
                 { PersistentVolumeClaim := some { ClaimName := webServer.Spec.ApplicationName } } }],
          Containers :=
            [{ Name := "war",
               Image := webApp.Builder.Image,
               Command := ["/bin/sh", "-c"],
               Args := [webApp.Builder.ApplicationBuildScript],
               VolumeMounts := [{ Name := "app-volume", MountPath := "/mnt" }] }] } }
  pure { pod with
    ObjectMeta := controllerutil.SetControllerReference webServer pod.ObjectMeta r.scheme }

/-- The function `generateLivenessProbe` of `kubernetes_controller.go`; a `nil`
health specification is `none`. -/
def generateLivenessProbe (health : Option WebServerHealthCheckSpec) : corev1.Probe :=
  let livenessProbeScript :=
    match health with
    | some h => h.ServerLivenessScript
    | none => ""
  if livenessProbeScript ≠ "" then
    generateCustomProbe livenessProbeScript
  else
    { Handler := { HTTPGet := some { Path := "/health", Port := 8080 } } }

/-- The function `generateReadinessProbe` of `kubernetes_controller.go`; a `nil`
health specification is `none`. -/
def generateReadinessProbe (health : Option WebServerHealthCheckSpec) : corev1.Probe :=
  let readinessProbeScript :=
    match health with
    | some h => h.ServerReadinessScript
    | none => ""
  if readinessProbeScript ≠ "" then
    generateCustomProbe readinessProbeScript
  else
    { Handler := { HTTPGet := some { Path := "/health", Port := 8080 } } }

/-- The function `generateEnvVars` of `kubernetes_controller.go`. -/
def generateEnvVars (r : ReconcileWebServer) (webServer : WebServer) : List corev1.EnvVar :=
  let value := "webserver-" ++ webServer.Name
  let value := if r.useKUBEPing && webServer.Spec.UseSessionClustering then webServer.Namespace
    else value
  let env : List corev1.EnvVar := [{ Name := "KUBERNETES_NAMESPACE", Value := value }]
  let env := if webServer.Spec.UseSessionClustering then
      env ++ [{ Name := "ENV_FILES", Value := "/test/my-files/test.sh" }]
    else env
  env

/-- The function `generateVolumeMounts` of `kubernetes_controller.go`. -/
def generateVolumeMounts (webServer : WebServer) : List corev1.VolumeMount :=
  let volm : List corev1.VolumeMount := []
  let volm := if webServer.Spec.UseSessionClustering then
      volm ++ [{ Name := "webserver-" ++ webServer.Name, MountPath := "/test/my-files" }]
    else volm
  let volm :=
    match webServer.Spec.WebImage with
    | some webImage =>
      match webImage.WebApp with
      | some webApp =>
        let webAppWarFileName := webApp.Name ++ ".war"
        volm ++ [{ Name := "app-volume",
                   MountPath := webApp.DeployPath ++ webAppWarFileName,
                   SubPath := webAppWarFileName }]
      | none => volm
    | none => volm
  volm

/-- The function `generateVolumes` of `kubernetes_controller.go`. -/
def generateVolumes (webServer : WebServer) : List corev1.Volume :=
  let vol : List corev1.Volume := []
  let vol := if webServer.Spec.UseSessionClustering then
      vol ++ [{ Name := "webserver-" ++ webServer.Name,
                VolumeSource := { ConfigMap := some { Name := "webserver-" ++ webServer.Name } } }]
    else vol
  let vol :=
    match webServer.Spec.WebImage with
    | some webImage =>
      match webImage.WebApp with
      | some _ =>
        vol ++ [{ Name := "app-volume",
                  VolumeSource :=
                    { PersistentVolumeClaim :=
                        some { ClaimName := webServer.Spec.ApplicationName, ReadOnly := true } } }]
      | none => vol
    | none => vol
  vol

/-- The function `generatePodTemplate` of `kubernetes_controller.go`; `none` is the
program stopped on the dereference of an absent image stream, when neither image
source is populated. -/
def generatePodTemplate (r : ReconcileWebServer) (webServer : WebServer) (image : String) :
    Option corev1.PodTemplateSpec := do
  let objectMeta := generateObjectMeta webServer webServer.Spec.ApplicationName
  let objectMeta :=
    { objectMeta with
      Labels := objectMeta.Labels.set "deploymentConfig" webServer.Spec.ApplicationName }
  let objectMeta := { objectMeta with Labels := objectMeta.Labels.set "WebServer" webServer.Name }
  let health ←
    match webServer.Spec.WebImage with
    | some webImage => some webImage.WebServerHealthCheck
    | none =>
      match webServer.Spec.WebImageStream with
      | some webImageStream => some webImageStream.WebServerHealthCheck
      | none => none
  let terminationGracePeriodSeconds : Int := 60
  pure
    { ObjectMeta := objectMeta,
      Spec :=
        { TerminationGracePeriodSeconds := some terminationGracePeriodSeconds,
          Containers :=
            [{ Name := webServer.Spec.ApplicationName,
               Image := image,
               ImagePullPolicy := "Always",
               ReadinessProbe := some (generateReadinessProbe health),
               LivenessProbe := some (generateLivenessProbe health),
               Ports :=
                 [{ Name := "jolokia", ContainerPort := 8778, Protocol := corev1.ProtocolTCP },
                  { Name := "http", ContainerPort := 8080, Protocol := corev1.ProtocolTCP }],
               Env := generateEnvVars r webServer,
               VolumeMounts := generateVolumeMounts webServer }],
          Volumes := generateVolumes webServer } }

/-- The function `generateDeployment` of `kubernetes_controller.go`; `none` is the
program stopped on the dereference of an absent prebuilt image. -/
def generateDeployment (r : ReconcileWebServer) (webServer : WebServer) :
    Option kbappsv1.Deployment := do
  let replicas : Int := 1
  let webImage ← webServer.Spec.WebImage
  let podTemplateSpec ← generatePodTemplate r webServer webImage.ApplicationImage
  let deployment : kbappsv1.Deployment :=
    { TypeMeta := { APIVersion := "k8s.io/api/apps/v1", Kind := "Deployment" },
      ObjectMeta := generateObjectMeta webServer webServer.Spec.ApplicationName,
      Spec :=
        { Strategy := kbappsv1.RecreateDeploymentStrategyType,
          Replicas := some replicas,
          Selector := some
            { MatchLabels :=
                (StringMap.empty.set "deploymentConfig" webServer.Spec.ApplicationName).set
                  "WebServer" webServer.Name },
          Template := podTemplateSpec } }
  pure { deployment with
    ObjectMeta := controllerutil.SetControllerReference webServer deployment.ObjectMeta r.scheme }

/-- The function `generateLabelsForWeb` of `kubernetes_controller.go`. -/
def generateLabelsForWeb (webServer : WebServer) : StringMap :=
  let labels :=
    (StringMap.empty.set "deploymentConfig" webServer.Spec.ApplicationName).set
      "WebServer" webServer.Name
  labels.assignAll webServer.Labels

/-! ## `helper.go`: platform capability and defaults -/

namespace metav1

/-- The type `metav1.APIGroup`: the name of the group. -/
structure APIGroup where
  Name : String
  deriving DecidableEq

/-- The type `metav1.APIGroupList`. -/
structure APIGroupList where
  Groups : List APIGroup
  deriving DecidableEq

end metav1

/-- The discovery library as the package calls it, over the type `Config` of
`rest.Config` and the type `DiscoveryClient` of its client: each of the two calls
gives a value or an error. -/
structure DiscoveryLibrary (Config DiscoveryClient : Type) where
  NewDiscoveryClientForConfig : Config → Except errors.APIError DiscoveryClient
  ServerGroups : DiscoveryClient → Except errors.APIError metav1.APIGroupList

/-- The function `isOpenShift` of `helper.go`. -/
def isOpenShift {Config DiscoveryClient : Type}
    (discovery : DiscoveryLibrary Config DiscoveryClient) (c : Config) : Bool :=
  match discovery.NewDiscoveryClientForConfig c with
  | .error _ => false
  | .ok dcclient =>
    match discovery.ServerGroups dcclient with
    | .error _ => false
    | .ok apiList => apiList.Groups.any (fun v => decide (v.Name = "route.openshift.io"))

/-- The function `generateWebAppBuildScript` of `helper.go`: `fmt.Sprintf` puts the four
strings in the places of the four `%s` of the template and writes its `%%` as one
`%`; `none` is the program stopped on the dereference of an absent web
archive. -/
def generateWebAppBuildScript (webServer : WebServer) : Option String := do
  let webImage ← webServer.Spec.WebImage
  let webApp ← webImage.WebApp
  let webAppWarFileName := webApp.Name ++ ".war"
  let webAppSourceRepositoryURL := webApp.SourceRepositoryURL
  let webAppSourceRepositoryRef := webApp.SourceRepositoryRef
  let webAppSourceRepositoryContextDir := webApp.SourceRepositoryContextDir
  pure
    ("\n" ++
      "\t\twebAppWarFileName=" ++ webAppWarFileName ++
      ";\n" ++
      "\t\twebAppSourceRepositoryURL=" ++ webAppSourceRepositoryURL ++
      ";\n" ++
      "\t\twebAppSourceRepositoryRef=" ++ webAppSourceRepositoryRef ++
      ";\n" ++
      "\t\twebAppSourceRepositoryContextDir=" ++ webAppSourceRepositoryContextDir ++
      ";\n" ++
      "\n" ++
      "\t\t# Some pods don't have root privileges, so the build takes place in /tmp\n" ++
      "\t\tcd tmp;\n" ++
      "\n" ++
      "\t\t# Create a custom .m2 repo in a location where no root privileges are required\n" ++
      "\t\tmkdir -p /tmp/.m2/repo;\n" ++
      "\n" ++
      "\t\t# Create custom maven settings that change the location of the .m2 repo\n" ++
      "\t\techo '<settings xmlns=\"http://maven.apache.org/SETTINGS/1.0.0\" xmlns:xsi=\"http://www.w3.org/2001/XMLSchema-instance\"' >> /tmp/.m2/settings.xml\n" ++
      "\t\techo 'xsi:schemaLocation=\"http://maven.apache.org/SETTINGS/1.0.0 https://maven.apache.org/xsd/settings-1.0.0.xsd\">' >> /tmp/.m2/settings.xml\n" ++
      "\t\techo '<localRepository>/tmp/.m2/repo</localRepository>' >> /tmp/.m2/settings.xml\n" ++
      "\t\techo '</settings>' >> /tmp/.m2/settings.xml\n" ++
      "\n" ++
      "\t\tif [ -z $\x7bwebAppSourceRepositoryURL\x7d ]; then\n" ++
      "\t\t\techo \"Need an URL like https://github.com/jfclere/demo-webapp.git\";\n" ++
      "\t\t\texit 1;\n" ++
      "\t\tfi;\n" ++
      "\n" ++
      "\t\tgit clone $\x7bwebAppSourceRepositoryURL\x7d;\n" ++
      "\t\tif [ $? -ne 0 ]; then\n" ++
      "\t\t\techo \"Can't clone $\x7bwebAppSourceRepositoryURL\x7d\";\n" ++
      "\t\t\texit 1;\n" ++
      "\t\tfi;\n" ++
      "\n" ++
      "\t\t# Get the name of the source code directory\n" ++
      "\t\tDIR=$(echo $\x7bwebAppSourceRepositoryURL##*/\x7d);\n" ++
      "\t\tDIR=$(echo $\x7bDIR%.*\x7d);\n" ++
      "\n" ++
      "\t\tcd $\x7bDIR\x7d;\n" ++
      "\n" ++
      "\t\tif [ ! -z $\x7bwebAppSourceRepositoryRef\x7d ]; then\n" ++
      "\t\t\tgit checkout $\x7bwebAppSourceRepositoryRef\x7d;\n" ++
      "\t\tfi;\n" ++
      "\n" ++
      "\t\tif [ ! -z $\x7bwebAppSourceRepositoryContextDir\x7d ]; then\n" ++
      "\t\t\tcd $\x7bwebAppSourceRepositoryContextDir\x7d;\n" ++
      "\t\tfi;\n" ++
      "\n" ++
      "\t\t# Builds the webapp using the custom maven settings\n" ++
      "\t\tmvn clean install -gs /tmp/.m2/settings.xml;\n" ++
      "\t\tif [ $? -ne 0 ]; then\n" ++
      "\t\t\techo \"mvn install failed please check the pom.xml in $\x7bwebAppSourceRepositoryURL\x7d\";\n" ++
      "\t\t\texit 1;\n" ++
      "\t\tfi\n" ++
      "\n" ++
      "\t\t# Copies the resulting war to the mounted persistent volume\n" ++
      "\t\tcp target/*.war /mnt/$\x7bwebAppWarFileName\x7d;")

/-- The custom resource after a write of `webApp` through the pointer
`webServer.Spec.WebImage.WebApp`. -/
def storeWebApp (webServer : WebServer) (webImage : webserversv1alpha1.WebImageSpec)
    (webApp : webserversv1alpha1.WebAppSpec) : WebServer :=
  { webServer with Spec := { webServer.Spec with WebImage := some { webImage with WebApp := some webApp } } }

/-- The function `setDefaultValues` of `helper.go`; the receiver is not read.  The
writes through the `webApp` pointer are visible to `generateWebAppBuildScript`,
which is given the custom resource with the defaults set so far. -/
def setDefaultValues (webServer : WebServer) : Option WebServer :=
  match webServer.Spec.WebImage with
  | some webImage =>
    match webImage.WebApp with
    | some webApp =>
      let webApp := if webApp.Name = "" then { webApp with Name := "ROOT" } else webApp
      let webApp := if webApp.DeployPath = "" then { webApp with DeployPath := "/deployments/" }
        else webApp
      let webApp := if webApp.ApplicationSizeLimit = "" then
          { webApp with ApplicationSizeLimit := "1Gi" }
        else webApp
      if webApp.Builder.ApplicationBuildScript = "" then do
        let script ← generateWebAppBuildScript (storeWebApp webServer webImage webApp)
        pure (storeWebApp webServer webImage
          { webApp with Builder := { webApp.Builder with ApplicationBuildScript := script } })
      else
        some (storeWebApp webServer webImage webApp)
    | none => some webServer
  | none => some webServer

/-! ## OpenShift API types used by the generated objects -/

namespace buildv1

/-- The type `buildv1.GitBuildSource`. -/
structure GitBuildSource where
  URI : String
  Ref : String
  deriving DecidableEq

/-- The type `buildv1.BuildSource`: the fields the package sets. -/
structure BuildSource where
  Type_ : String
  Git : Option GitBuildSource
  ContextDir : String
  deriving DecidableEq

/-- The type `buildv1.SourceBuildStrategy`: the fields the package sets. -/
structure SourceBuildStrategy where
  Env : List corev1.EnvVar
  ForcePull : Bool
  From : corev1.ObjectReference
  deriving DecidableEq

/-- The type `buildv1.BuildStrategy`: the fields the package sets. -/
structure BuildStrategy where
  Type_ : String
  SourceStrategy : Option SourceBuildStrategy
  deriving DecidableEq

/-- The type `buildv1.BuildOutput`: the fields the package sets. -/
structure BuildOutput where
  To : Option corev1.ObjectReference
  deriving DecidableEq

/-- The type `buildv1.CommonSpec`: the fields the package sets. -/
structure CommonSpec where
  Source : BuildSource
  Strategy : BuildStrategy
  Output : BuildOutput
  deriving DecidableEq

/-- The type `buildv1.ImageChangeTrigger`, which the package leaves at its zero
value. -/
structure ImageChangeTrigger where
  deriving DecidableEq

/-- The type `buildv1.WebHookTrigger`: the fields the package sets. -/
structure WebHookTrigger where
  Secret : String
  deriving DecidableEq

/-- The type `buildv1.BuildTriggerPolicy`. -/
structure BuildTriggerPolicy where
  Type_ : String
  GitHubWebHook : Option WebHookTrigger := none
  GenericWebHook : Option WebHookTrigger := none
  ImageChange : Option ImageChangeTrigger := none
  deriving DecidableEq

/-- The type `buildv1.BuildConfigSpec`. -/
structure BuildConfigSpec where
  CommonSpec : CommonSpec
  Triggers : List BuildTriggerPolicy
  deriving DecidableEq

/-- The type `buildv1.BuildConfig`. -/
structure BuildConfig where
  TypeMeta : metav1.TypeMeta
  ObjectMeta : metav1.ObjectMeta
  Spec : BuildConfigSpec

end buildv1

namespace appsv1

/-- The constant `appsv1.DeploymentStrategyTypeRecreate`. -/
def DeploymentStrategyTypeRecreate : String := "Recreate"

/-- The constant `appsv1.DeploymentTriggerOnImageChange`. -/
def DeploymentTriggerOnImageChange : String := "ImageChange"

/-- The constant `appsv1.DeploymentTriggerOnConfigChange`. -/
def DeploymentTriggerOnConfigChange : String := "ConfigChange"

/-- The type `appsv1.DeploymentTriggerImageChangeParams`: the fields the package
sets. -/
structure DeploymentTriggerImageChangeParams where
  Automatic : Bool
  ContainerNames : List String
  From : corev1.ObjectReference
  deriving DecidableEq

/-- The type `appsv1.DeploymentTriggerPolicy`. -/
structure DeploymentTriggerPolicy where
  Type_ : String
  ImageChangeParams : Option DeploymentTriggerImageChangeParams := none
  deriving DecidableEq

/-- The type `appsv1.DeploymentConfigSpec`: the fields the package sets;
`Strategy` is the type of the deployment strategy. -/
structure DeploymentConfigSpec where
  Strategy : String
  Triggers : List DeploymentTriggerPolicy
  Replicas : Int
  Selector : StringMap
  Template : Option corev1.PodTemplateSpec

/-- The type `appsv1.DeploymentConfig`. -/
structure DeploymentConfig where
  TypeMeta : metav1.TypeMeta
  ObjectMeta : metav1.ObjectMeta
  Spec : DeploymentConfigSpec

end appsv1

/-! ## `openshift_controller.go`: the generated objects -/

/-- The function `generateEnvBuild` of `openshift_controller.go`; `none` is the
program stopped on the dereference of an absent image stream. -/
def generateEnvBuild (webServer : WebServer) : Option (List corev1.EnvVar) := do
  let env : List corev1.EnvVar := []
  let webImageStream ← webServer.Spec.WebImageStream
  let sources := webImageStream.WebSources
  match sources with
  | some sources =>
    let params := sources.WebSourcesParams
    match params with
    | some params =>
      let env := if params.MavenMirrorURL ≠ "" then
          env ++ [{ Name := "MAVEN_MIRROR_URL", Value := params.MavenMirrorURL }]
        else env
      let env := if params.ArtifactDir ≠ "" then
          env ++ [{ Name := "ARTIFACT_DIR", Value := params.ArtifactDir }]
        else env
      pure env
    | none => pure env
  | none => pure env

/-- The function `generateBuildTriggerPolicy` of `openshift_controller.go`; `none` is
the program stopped on the dereference of an absent image stream. -/
def generateBuildTriggerPolicy (webServer : WebServer) :
    Option (List buildv1.BuildTriggerPolicy) := do
  let env : List buildv1.BuildTriggerPolicy :=
    [{ Type_ := "ImageChange", ImageChange := some {} },
     { Type_ := "ConfigChange" }]
  let webImageStream ← webServer.Spec.WebImageStream
  let sources := webImageStream.WebSources
  match sources with
  | some sources =>
    let params := sources.WebSourcesParams
    match params with
    | some params =>
      let env := if params.GithubWebhookSecret ≠ "" then
          env ++ [{ Type_ := "GitHub", GitHubWebHook := some { Secret := params.GithubWebhookSecret } }]
        else env
      let env := if params.GenericWebhookSecret ≠ "" then
          env ++ [{ Type_ := "Generic",
                    GenericWebHook := some { Secret := params.GenericWebhookSecret } }]
        else env
      pure env
    | none => pure env
  | none => pure env

/-- The function `generateBuildConfig` of `openshift_controller.go`; `none` is the
program stopped on the dereference of an absent image stream or of absent web
sources. -/
def generateBuildConfig (r : ReconcileWebServer) (webServer : WebServer) :
    Option buildv1.BuildConfig := do
  let webImageStream ← webServer.Spec.WebImageStream
  let webSources ← webImageStream.WebSources
  let envBuild ← generateEnvBuild webServer
  let triggers ← generateBuildTriggerPolicy webServer
  let buildConfig : buildv1.BuildConfig :=
    { TypeMeta := { APIVersion := "build.openshift.io/v1", Kind := "BuildConfig" },
      ObjectMeta := generateObjectMeta webServer webServer.Spec.ApplicationName,
      Spec :=
        { CommonSpec :=
            { Source :=
                { Type_ := "Git",
                  Git := some { URI := webSources.SourceRepositoryURL,
                                Ref := webSources.SourceRepositoryRef },
                  ContextDir := webSources.ContextDir },
              Strategy :=
                { Type_ := "Source",
                  SourceStrategy := some
                    { Env := envBuild,
                      ForcePull := true,
                      From := { Kind := "ImageStreamTag",
                                Namespace := webImageStream.ImageStreamNamespace,
                                Name := webImageStream.ImageStreamName ++ ":latest" } } },
              Output :=
                { To := some { Kind := "ImageStreamTag",
                               Name := webServer.Spec.ApplicationName ++ ":latest" } } },
          Triggers := triggers } }
  pure { buildConfig with
    ObjectMeta := controllerutil.SetControllerReference webServer buildConfig.ObjectMeta r.scheme }

/-- The function `generateDeploymentConfig` of `openshift_controller.go`; `none` is the
program stopped inside `generatePodTemplate`. -/
def generateDeploymentConfig (r : ReconcileWebServer) (webServer : WebServer)
    (imageStreamName : String) (imageStreamNamespace : String) :
    Option appsv1.DeploymentConfig := do
  let replicas : Int := 1
  let podTemplateSpec ← generatePodTemplate r webServer webServer.Spec.ApplicationName
  let deploymentConfig : appsv1.DeploymentConfig :=
    { TypeMeta := { APIVersion := "apps.openshift.io/v1", Kind := "DeploymentConfig" },
      ObjectMeta := generateObjectMeta webServer webServer.Spec.ApplicationName,
      Spec :=
        { Strategy := appsv1.DeploymentStrategyTypeRecreate,
          Triggers :=
            [{ Type_ := appsv1.DeploymentTriggerOnImageChange,
               ImageChangeParams := some
                 { Automatic := true,
                   ContainerNames := [webServer.Spec.ApplicationName],
                   From := { Kind := "ImageStreamTag",
                             Name := imageStreamName ++ ":latest",
                             Namespace := imageStreamNamespace } } },
             { Type_ := appsv1.DeploymentTriggerOnConfigChange }],
          Replicas := replicas,
          Selector :=
            (StringMap.empty.set "deploymentConfig" webServer.Spec.ApplicationName).set
              "WebServer" webServer.Name,
          Template := some podTemplateSpec } }
  pure { deploymentConfig with
    ObjectMeta :=
      controllerutil.SetControllerReference webServer deploymentConfig.ObjectMeta r.scheme }

/-! ## Custom resources for the examples -/

/-- A reconciler with the `WebServer` type registered and DNS discovery. -/
def demoReconciler : ReconcileWebServer :=
  { scheme := { WebServerKind := some { APIVersion := "web.servers.org/v1alpha1", Kind := "WebServer" } },
    useKUBEPing := false }

/-- The specification `{applicationName: "demo", image: "quay.io/x/demo:latest",
sessionClustering: false}`: a prebuilt image without web archive and without
health overrides. -/
def demoSpec : webserversv1alpha1.WebServerSpec :=
  { ApplicationName := "demo",
    UseSessionClustering := false,
    WebImage := some
      { ApplicationImage := "quay.io/x/demo:latest", WebApp := none, WebServerHealthCheck := none },
    WebImageStream := none }

/-- The custom resource `prod/demo-cr` with the specification `demoSpec` and no
labels. -/
def demoWebServer : WebServer :=
  { Name := "demo-cr", Namespace := "prod", UID := "uid-1", Labels := StringMap.empty,
    Spec := demoSpec }

/-- The custom resource `demoWebServer` with the label `WebServer=other` put on
it by its author. -/
def relabelledWebServer : WebServer :=
  { demoWebServer with Labels := StringMap.empty.set "WebServer" "other" }

/-- A web archive with every optional field left empty. -/
def bareWebApp : webserversv1alpha1.WebAppSpec :=
  { Name := "",
    SourceRepositoryURL := "https://github.com/jfclere/demo-webapp.git",
    SourceRepositoryRef := "",
    SourceRepositoryContextDir := "",
    DeployPath := "",
    ApplicationSizeLimit := "",
    Builder := { Image := "quay.io/x/builder:latest", ApplicationBuildScript := "" } }

/-- A web archive with name, deploy path and size limit given. -/
def rootWebApp : webserversv1alpha1.WebAppSpec :=
  { bareWebApp with Name := "ROOT", DeployPath := "/deployments/", ApplicationSizeLimit := "1Gi" }

/-- A prebuilt image that carries the web archive `rootWebApp`. -/
def archiveImage : webserversv1alpha1.WebImageSpec :=
  { ApplicationImage := "quay.io/x/demo:latest", WebApp := some rootWebApp,
    WebServerHealthCheck := none }

/-- The custom resource `prod/demo-cr` with a web archive and session
clustering. -/
def archiveWebServer : WebServer :=
  { demoWebServer with
    Spec := { ApplicationName := "demo", UseSessionClustering := true,
              WebImage := some archiveImage, WebImageStream := none } }

/-- Build parameters with a GitHub webhook secret and no generic one. -/
def githubParams : webserversv1alpha1.WebSourcesParamsSpec :=
  { MavenMirrorURL := "", ArtifactDir := "", GenericWebhookSecret := "",
    GithubWebhookSecret := "github-secret" }

/-- A build pipeline from the base image stream `openshift/jws-tomcat9`. -/
def pipelineStream : webserversv1alpha1.WebImageStreamSpec :=
  { ImageStreamName := "jws-tomcat9",
    ImageStreamNamespace := "openshift",
    WebSources := some
      { SourceRepositoryURL := "https://github.com/jfclere/demo-webapp.git",
        SourceRepositoryRef := "", ContextDir := "", WebSourcesParams := some githubParams },
    WebServerHealthCheck := none }

/-- The custom resource `prod/demo-cr` with the build pipeline
`pipelineStream`. -/
def pipelineWebServer : WebServer :=
  { demoWebServer with
    Spec := { ApplicationName := "demo", UseSessionClustering := false,
              WebImage := none, WebImageStream := some pipelineStream } }

/-- The custom resource `prod/demo-cr` with the web archive `bareWebApp`, whose
optional fields are all empty. -/
def bareWebServer : WebServer :=
  { demoWebServer with
    Spec := { ApplicationName := "demo", UseSessionClustering := false,
              WebImage := some { archiveImage with WebApp := some bareWebApp },
              WebImageStream := none } }

/-- The custom resource `prod/demo-cr` with a build pipeline that names its base
image stream and leaves the web sources out. -/
def sourcelessWebServer : WebServer :=
  { demoWebServer with
    Spec := { ApplicationName := "demo", UseSessionClustering := false,
              WebImage := none,
              WebImageStream := some { pipelineStream with WebSources := none } } }


/-! ## Ordering of the pod list -/

/-- The function `stringLess` is the strict lexicographic order of strings. -/
theorem stringLess_iff (a b : String) : stringLess a b = true ↔ a < b := by
  simp [stringLess, String.lt_iff_toList_lt]

namespace sort

/-- Sinking an element into a list adds that element and nothing else. -/
theorem sink_perm {α : Type} (less : α → α → Bool) (x : α) (sorted : List α) :
    (sink less x sorted).Perm (x :: sorted) := by
  induction sorted with
  | nil => simp [sink]
  | cons y rest ih =>
    unfold sink
    split
    · exact (ih.cons y).trans (List.Perm.swap x y rest)
    · exact List.Perm.refl _

/-- An element only sinks past elements it is less than, so it never overtakes
an element that falls in the same class of a predicate `p` that `less` does not
cut. -/
theorem sink_filter {α : Type} (less : α → α → Bool) (p : α → Bool)
    (hp : ∀ a b, p a = true → p b = true → less a b = false) (x : α) (sorted : List α) :
    (sink less x sorted).filter p = (x :: sorted).filter p := by
  induction sorted with
  | nil => simp [sink]
  | cons y rest ih =>
    unfold sink
    split
    · rename_i hlt
      rw [List.filter_cons, ih]
      by_cases hx : p x = true
      · by_cases hy : p y = true
        · rw [hp x y hx hy] at hlt
          exact absurd hlt (by simp)
        · simp [List.filter_cons, hx, hy]
      · simp [List.filter_cons, hx]
    · rfl

/-- Sinking keeps a list ordered, for a `less` that compares keys of a linear
order; the list is held reversed, so it is ordered downwards. -/
theorem sink_pairwise {α κ : Type} [LinearOrder κ] (key : α → κ) (less : α → α → Bool)
    (hless : ∀ a b, less a b = true ↔ key a < key b) (x : α) (sorted : List α)
    (h : sorted.Pairwise (fun a b => key b ≤ key a)) :
    (sink less x sorted).Pairwise (fun a b => key b ≤ key a) := by
  induction sorted with
  | nil => simp [sink]
  | cons y rest ih =>
    rw [List.pairwise_cons] at h
    unfold sink
    split
    · rename_i hlt
      rw [List.pairwise_cons]
      refine ⟨?_, ih h.2⟩
      intro z hz
      rcases List.mem_cons.mp ((sink_perm less x rest).mem_iff.mp hz) with rfl | hz
      · exact le_of_lt ((hless _ _).mp hlt)
      · exact h.1 z hz
    · rename_i hlt
      have hyx : key y ≤ key x := not_lt.mp (fun hc => hlt ((hless _ _).mpr hc))
      rw [List.pairwise_cons]
      refine ⟨?_, List.pairwise_cons.mpr h⟩
      intro z hz
      rcases List.mem_cons.mp hz with rfl | hz
      · exact hyx
      · exact le_trans (h.1 z hz) hyx

/-- The loop of the insertion sort holds the elements read so far. -/
theorem foldl_sink_perm {α : Type} (less : α → α → Bool) (x sorted : List α) :
    (x.foldl (fun sorted e => sink less e sorted) sorted).Perm (x ++ sorted) := by
  induction x generalizing sorted with
  | nil => simp
  | cons e rest ih =>
    rw [List.foldl_cons]
    refine (ih _).trans ?_
    refine ((sink_perm less e sorted).append_left rest).trans ?_
    simp

/-- The loop of the insertion sort keeps each class of `p` in the order read. -/
theorem foldl_sink_filter {α : Type} (less : α → α → Bool) (p : α → Bool)
    (hp : ∀ a b, p a = true → p b = true → less a b = false) (x sorted : List α) :
    (x.foldl (fun sorted e => sink less e sorted) sorted).filter p =
      (x.reverse ++ sorted).filter p := by
  induction x generalizing sorted with
  | nil => simp
  | cons e rest ih =>
    rw [List.foldl_cons, ih, List.filter_append, sink_filter less p hp, List.reverse_cons,
      List.append_assoc, List.filter_append]
    rfl

/-- The loop of the insertion sort keeps the list ordered. -/
theorem foldl_sink_pairwise {α κ : Type} [LinearOrder κ] (key : α → κ) (less : α → α → Bool)
    (hless : ∀ a b, less a b = true ↔ key a < key b) (x sorted : List α)
    (h : sorted.Pairwise (fun a b => key b ≤ key a)) :
    (x.foldl (fun sorted e => sink less e sorted) sorted).Pairwise (fun a b => key b ≤ key a) := by
  induction x generalizing sorted with
  | nil => simpa using h
  | cons e rest ih =>
    rw [List.foldl_cons]
    exact ih _ (sink_pairwise key less hless e sorted h)

/-- The function `SliceStable` returns a permutation of its input. -/
theorem SliceStable_perm {α : Type} (less : α → α → Bool) (x : List α) :
    (SliceStable x less).Perm x := by
  unfold SliceStable
  refine (List.reverse_perm _).trans ?_
  simpa using foldl_sink_perm less x []

/-- The function `SliceStable` orders its input by key. -/
theorem SliceStable_pairwise {α κ : Type} [LinearOrder κ] (key : α → κ) (less : α → α → Bool)
    (hless : ∀ a b, less a b = true ↔ key a < key b) (x : List α) :
    (SliceStable x less).Pairwise (fun a b => key a ≤ key b) := by
  unfold SliceStable
  rw [List.pairwise_reverse]
  exact foldl_sink_pairwise key less hless x [] List.Pairwise.nil

/-- The function `SliceStable` keeps the elements of one class of `p` in their input
order. -/
theorem SliceStable_filter {α : Type} (less : α → α → Bool) (p : α → Bool)
    (hp : ∀ a b, p a = true → p b = true → less a b = false) (x : List α) :
    (SliceStable x less).filter p = x.filter p := by
  unfold SliceStable
  rw [List.filter_reverse, foldl_sink_filter less p hp]
  simp [List.filter_reverse]

end sort

/-- C5: `sortPodListByName` returns a permutation of the pod list, in ascending
lexicographic order of the names, in which the pods of one name are in their
input order; pods named `app-2`, `app-10`, `app-1` come back in the order
`app-1`, `app-10`, `app-2`. -/
theorem sortPodListByName_sorted_stable (items : List corev1.Pod) :
    (sortPodListByName items).Perm items ∧
      (sortPodListByName items).Pairwise (fun a b => a.Name ≤ b.Name) ∧
      (∀ name : String,
        (sortPodListByName items).filter (fun pod => decide (pod.Name = name)) =
          items.filter (fun pod => decide (pod.Name = name))) ∧
      (∀ s2 s10 s1 : corev1.PodStatus,
        sortPodListByName [⟨"app-2", s2⟩, ⟨"app-10", s10⟩, ⟨"app-1", s1⟩] =
          [⟨"app-1", s1⟩, ⟨"app-10", s10⟩, ⟨"app-2", s2⟩]) := by
  refine ⟨sort.SliceStable_perm _ items, ?_, ?_, ?_⟩
  · exact sort.SliceStable_pairwise (fun pod : corev1.Pod => pod.Name) _
      (fun a b => stringLess_iff a.Name b.Name) items
  · intro name
    refine sort.SliceStable_filter _ _ ?_ items
    intro a b ha hb
    have hab : a.Name = b.Name := by
      rw [of_decide_eq_true ha, of_decide_eq_true hb]
    have hnlt : ¬ stringLess a.Name b.Name = true := by
      rw [stringLess_iff, hab]
      exact lt_irrefl _
    simpa using hnlt
  · intro s2 s10 s1
    rfl

/-- C6: the pods `app-2`, `app-10` of one application come back from
`sortPodListByName` as `app-10`, `app-2`: the numbers in the names, 10 then 2,
are not in ascending order. -/
theorem sortPodListByName_app_2_app_10 :
    sortPodListByName [⟨"app-2", ⟨"Running", "10.0.0.2"⟩⟩, ⟨"app-10", ⟨"Running", "10.0.0.10"⟩⟩] =
        [⟨"app-10", ⟨"Running", "10.0.0.10"⟩⟩, ⟨"app-2", ⟨"Running", "10.0.0.2"⟩⟩] ∧
      (sortPodListByName
        [⟨"app-2", ⟨"Running", "10.0.0.2"⟩⟩, ⟨"app-10", ⟨"Running", "10.0.0.10"⟩⟩]).map
          (fun pod => podOrdinal pod.Name) = [10, 2] ∧
      ¬ ((sortPodListByName
        [⟨"app-2", ⟨"Running", "10.0.0.2"⟩⟩, ⟨"app-10", ⟨"Running", "10.0.0.10"⟩⟩]).map
          (fun pod => podOrdinal pod.Name)).Pairwise (fun m n => m ≤ n) := by
  decide

namespace sort

/-- Two orderings of the same elements by key that both keep the elements of
each key in the same order are the same list. -/
theorem stable_sorted_unique {α κ : Type} [LinearOrder κ] (key : α → κ) (l₁ l₂ : List α)
    (hperm : l₁.Perm l₂)
    (h₁ : l₁.Pairwise (fun a b => key a ≤ key b))
    (h₂ : l₂.Pairwise (fun a b => key a ≤ key b))
    (hstable : ∀ k : κ, l₁.filter (fun a => decide (key a = k)) =
      l₂.filter (fun a => decide (key a = k))) :
    l₁ = l₂ := by
  induction l₁ generalizing l₂ with
  | nil => exact (List.nil_perm.mp hperm).symm
  | cons a t₁ ih =>
    cases l₂ with
    | nil => exact absurd hperm.symm (by simp)
    | cons b t₂ =>
      rw [List.pairwise_cons] at h₁ h₂
      have hab : key a ≤ key b := by
        rcases List.mem_cons.mp (hperm.mem_iff.mpr (List.mem_cons_self b t₂)) with h | h
        · rw [h]
        · exact h₁.1 b h
      have hba : key b ≤ key a := by
        rcases List.mem_cons.mp (hperm.mem_iff.mp (List.mem_cons_self a t₁)) with h | h
        · rw [h]
        · exact h₂.1 a h
      have hkey : key b = key a := le_antisymm hba hab
      have hhead := hstable (key a)
      simp only [List.filter_cons, hkey, decide_True, if_true] at hhead
      have heq : a = b := (List.cons.inj hhead).1
      subst heq
      have htail : t₁ = t₂ := by
        refine ih t₂ (List.Perm.cons_inv hperm) h₁.2 h₂.2 ?_
        intro k
        have hk := hstable k
        by_cases hak : key a = k
        · simp only [List.filter_cons, hak, decide_True, if_true] at hk
          exact (List.cons.inj hk).2
        · simpa [List.filter_cons, hak] using hk
      rw [htail]

/-- Any stable sort by key returns what `SliceStable` returns: a permutation of
the input that is ordered by key and keeps the elements of each key in their
input order is the list `SliceStable` computes. -/
theorem SliceStable_unique {α κ : Type} [LinearOrder κ] (key : α → κ) (less : α → α → Bool)
    (hless : ∀ a b, less a b = true ↔ key a < key b) (x out : List α)
    (hperm : out.Perm x)
    (hsorted : out.Pairwise (fun a b => key a ≤ key b))
    (hstable : ∀ k : κ, out.filter (fun a => decide (key a = k)) =
      x.filter (fun a => decide (key a = k))) :
    out = SliceStable x less := by
  refine stable_sorted_unique key out _ (hperm.trans (SliceStable_perm less x).symm) hsorted
    (SliceStable_pairwise key less hless x) ?_
  intro k
  rw [hstable k]
  symm
  refine SliceStable_filter less _ ?_ x
  intro a b ha hb
  have hab : key a = key b := by
    rw [of_decide_eq_true ha, of_decide_eq_true hb]
  have hnlt : ¬ less a b = true := by
    rw [hless, hab]
    exact lt_irrefl _
  simpa using hnlt

end sort

/-! ## Probe parsing: the quoted form -/

/-- C1: on the script `shell -c "echo ok"` the command of the exec probe that
`generateCustomProbe` returns has four tokens, `shell`, `-c`, the empty string
left by the space before the quote, and the remainder with both quote
characters kept; it is not the three tokens `shell`, `-c`, `echo ok`. -/
theorem generateCustomProbe_shell_echo_ok :
    generateCustomProbe "shell -c \"echo ok\"" =
        { Handler := { Exec := some { Command := ["shell", "-c", "", "\"echo ok\""] },
                       HTTPGet := none } } ∧
      (generateCustomProbe "shell -c \"echo ok\"").Handler.Exec ≠
        some { Command := ["shell", "-c", "echo ok"] } := by
  decide

/-! ## Pod status aggregation -/

/-- The records after the loop: those so far, then one for each pod. -/
theorem foldl_getPodStatusStep_fst (pods : List corev1.Pod)
    (acc : List webserversv1alpha1.PodStatus × Bool) :
    (pods.foldl getPodStatusStep acc).1 =
      acc.1 ++ pods.map (fun pod =>
        ({ Name := pod.Name, PodIP := pod.Status.PodIP,
           State := if pod.Status.Phase = "Pending" then PodState.PodStatePending
                    else if pod.Status.Phase = "Running" then PodState.PodStateActive
                    else PodState.PodStateFailed } : webserversv1alpha1.PodStatus)) := by
  induction pods generalizing acc with
  | nil => simp
  | cons pod rest ih =>
    rw [List.foldl_cons, ih]
    simp [getPodStatusStep, corev1.PodPending, corev1.PodRunning]

/-- The flag after the loop: raised before, or by a pod without an IP. -/
theorem foldl_getPodStatusStep_snd (pods : List corev1.Pod)
    (acc : List webserversv1alpha1.PodStatus × Bool) :
    (pods.foldl getPodStatusStep acc).2 = true ↔
      acc.2 = true ∨ ∃ pod ∈ pods, pod.Status.PodIP = "" := by
  induction pods generalizing acc with
  | nil => simp
  | cons pod rest ih =>
    rw [List.foldl_cons, ih]
    by_cases hip : pod.Status.PodIP = ""
    · simp [getPodStatusStep, hip]
    · simp [getPodStatusStep, hip]

/-- C3: `getPodStatus` returns one record per pod, in the order of the input;
the record of a pod carries its name, its IP and the folded phase, `Pending`
to Pending, `Running` to Active and any other phase to Failed, in particular
`Succeeded`, `Failed`, `Unknown` and the empty phase. -/
theorem getPodStatus_records (pods : List corev1.Pod) :
    (getPodStatus pods).1 =
        pods.map (fun pod =>
          ({ Name := pod.Name, PodIP := pod.Status.PodIP,
             State := if pod.Status.Phase = "Pending" then PodState.PodStatePending
                      else if pod.Status.Phase = "Running" then PodState.PodStateActive
                      else PodState.PodStateFailed } : webserversv1alpha1.PodStatus)) ∧
      (getPodStatus pods).1.length = pods.length ∧
      (∀ name ip : String,
        (getPodStatus [⟨name, ⟨"Succeeded", ip⟩⟩]).1 = [⟨name, ip, PodState.PodStateFailed⟩] ∧
        (getPodStatus [⟨name, ⟨"Failed", ip⟩⟩]).1 = [⟨name, ip, PodState.PodStateFailed⟩] ∧
        (getPodStatus [⟨name, ⟨"Unknown", ip⟩⟩]).1 = [⟨name, ip, PodState.PodStateFailed⟩] ∧
        (getPodStatus [⟨name, ⟨"", ip⟩⟩]).1 = [⟨name, ip, PodState.PodStateFailed⟩]) := by
  have h := foldl_getPodStatusStep_fst pods ([], false)
  refine ⟨by simpa [getPodStatus] using h, ?_, ?_⟩
  · rw [getPodStatus, h]; simp
  · intro name ip
    simp [getPodStatus, getPodStatusStep, corev1.PodPending, corev1.PodRunning]

/-- C4: the requeue flag of `getPodStatus` is raised exactly when some pod of
the list has an empty IP; it is down when every pod has an IP, and on the empty
list. -/
theorem getPodStatus_requeue_iff (pods : List corev1.Pod) :
    ((getPodStatus pods).2 = true ↔ ∃ pod ∈ pods, pod.Status.PodIP = "") ∧
      ((∀ pod ∈ pods, pod.Status.PodIP ≠ "") → (getPodStatus pods).2 = false) ∧
      (getPodStatus []).2 = false := by
  have h := foldl_getPodStatusStep_snd pods ([], false)
  have hiff : (getPodStatus pods).2 = true ↔ ∃ pod ∈ pods, pod.Status.PodIP = "" := by
    simpa [getPodStatus] using h
  refine ⟨hiff, ?_, rfl⟩
  intro hall
  cases hq : (getPodStatus pods).2 with
  | false => rfl
  | true =>
    obtain ⟨pod, hmem, hip⟩ := hiff.mp hq
    exact absurd hip (hall pod hmem)

/-! ## The create-if-absent driver -/

/-- C7: when the read of `createResource` succeeds, whatever object it finds,
the only request sent is that read (no create, no update), the cluster is left
as it was, and the result is `Result{}` (no requeue) with the `nil` error. -/
theorem createResource_found {σ Obj : Type} (client : Client σ Obj) (cluster : σ)
    (resource found : Obj) (resourceKind resourceName resourceNamespace : String)
    (hget : client.Get cluster ⟨resourceName, resourceNamespace⟩ resource = .ok found) :
    (createResource client cluster resource resourceKind resourceName resourceNamespace).calls =
        [APICall.Get ⟨resourceName, resourceNamespace⟩] ∧
      (createResource client cluster resource resourceKind resourceName resourceNamespace).cluster =
        cluster ∧
      (createResource client cluster resource resourceKind resourceName resourceNamespace).result =
        { Requeue := false, RequeueAfter := 0 } ∧
      (createResource client cluster resource resourceKind resourceName resourceNamespace).err =
        none := by
  simp [createResource, hget, errOf]

/-- The read of `demoService` succeeds on a cluster that holds it, with a
content edited out of band; nothing is created and the store is unchanged. -/
theorem createResource_found_witness :
    (createResource fakeClient
        ⟨[{ demoService with Content := "port 9090" }],
         [{ demoService with Content := "port 9090" }], none⟩
        demoService "Service" "demo" "prod").calls = [APICall.Get ⟨"demo", "prod"⟩] ∧
      (createResource fakeClient
        ⟨[{ demoService with Content := "port 9090" }],
         [{ demoService with Content := "port 9090" }], none⟩
        demoService "Service" "demo" "prod").cluster =
        ⟨[{ demoService with Content := "port 9090" }],
         [{ demoService with Content := "port 9090" }], none⟩ ∧
      (createResource fakeClient
        ⟨[{ demoService with Content := "port 9090" }],
         [{ demoService with Content := "port 9090" }], none⟩
        demoService "Service" "demo" "prod").result = { Requeue := false, RequeueAfter := 0 } ∧
      (createResource fakeClient
        ⟨[{ demoService with Content := "port 9090" }],
         [{ demoService with Content := "port 9090" }], none⟩
        demoService "Service" "demo" "prod").err = none :=
  createResource_found fakeClient _ demoService { demoService with Content := "port 9090" }
    "Service" "demo" "prod" rfl

/-- C8: when the read of `createResource` reports not-found and the create
succeeds, the requests sent are the read and then one create, of the given
resource; the cluster is the one the create leaves, and the result is
`Requeue = true` with the `nil` error. -/
theorem createResource_created {σ Obj : Type} (client : Client σ Obj) (cluster : σ)
    (resource stored : Obj) (resourceKind resourceName resourceNamespace : String)
    (e : errors.APIError)
    (hget : client.Get cluster ⟨resourceName, resourceNamespace⟩ resource = .error e)
    (hnf : errors.IsNotFound (some e) = true)
    (hcreate : (client.Create cluster resource).2 = .ok stored) :
    (createResource client cluster resource resourceKind resourceName resourceNamespace).calls =
        [APICall.Get ⟨resourceName, resourceNamespace⟩, APICall.Create resource] ∧
      (createResource client cluster resource resourceKind resourceName resourceNamespace).cluster =
        (client.Create cluster resource).1 ∧
      (createResource client cluster resource resourceKind resourceName resourceNamespace).result =
        { Requeue := true, RequeueAfter := 0 } ∧
      (createResource client cluster resource resourceKind resourceName resourceNamespace).err =
        none := by
  simp [createResource, hget, errOf, objAfter, hnf, hcreate]

/-- On the empty cluster `demoService` is read as absent and created: one
create, after which the store holds it. -/
theorem createResource_created_witness :
    (createResource fakeClient ⟨[], [], none⟩ demoService "Service" "demo" "prod").calls =
        [APICall.Get ⟨"demo", "prod"⟩, APICall.Create demoService] ∧
      (createResource fakeClient ⟨[], [], none⟩ demoService "Service" "demo" "prod").cluster =
        (fakeClient.Create ⟨[], [], none⟩ demoService).1 ∧
      (createResource fakeClient ⟨[], [], none⟩ demoService "Service" "demo" "prod").result =
        { Requeue := true, RequeueAfter := 0 } ∧
      (createResource fakeClient ⟨[], [], none⟩ demoService "Service" "demo" "prod").err =
        none :=
  createResource_created fakeClient ⟨[], [], none⟩ demoService demoService
    "Service" "demo" "prod" ⟨"NotFound", "not found"⟩ rfl (by decide) rfl

/-- C9: when the read of `createResource` fails with an error that is not
not-found, that error is the one returned, with `Result{}` (no requeue); the
only request sent is the read and the cluster is left as it was. -/
theorem createResource_get_error {σ Obj : Type} (client : Client σ Obj) (cluster : σ)
    (resource : Obj) (resourceKind resourceName resourceNamespace : String)
    (e : errors.APIError)
    (hget : client.Get cluster ⟨resourceName, resourceNamespace⟩ resource = .error e)
    (hnf : errors.IsNotFound (some e) = false) :
    (createResource client cluster resource resourceKind resourceName resourceNamespace).err =
        some e ∧
      (createResource client cluster resource resourceKind resourceName resourceNamespace).result =
        { Requeue := false, RequeueAfter := 0 } ∧
      (createResource client cluster resource resourceKind resourceName resourceNamespace).calls =
        [APICall.Get ⟨resourceName, resourceNamespace⟩] ∧
      (createResource client cluster resource resourceKind resourceName resourceNamespace).cluster =
        cluster := by
  simp [createResource, hget, errOf, objAfter, hnf]

/-- A read that fails on a forbidden access returns that error and creates
nothing. -/
theorem createResource_get_error_witness :
    (createResource fakeClient ⟨[], [], some ⟨"Forbidden", "services is forbidden"⟩⟩
        demoService "Service" "demo" "prod").err =
        some ⟨"Forbidden", "services is forbidden"⟩ ∧
      (createResource fakeClient ⟨[], [], some ⟨"Forbidden", "services is forbidden"⟩⟩
        demoService "Service" "demo" "prod").result = { Requeue := false, RequeueAfter := 0 } ∧
      (createResource fakeClient ⟨[], [], some ⟨"Forbidden", "services is forbidden"⟩⟩
        demoService "Service" "demo" "prod").calls = [APICall.Get ⟨"demo", "prod"⟩] ∧
      (createResource fakeClient ⟨[], [], some ⟨"Forbidden", "services is forbidden"⟩⟩
        demoService "Service" "demo" "prod").cluster =
        ⟨[], [], some ⟨"Forbidden", "services is forbidden"⟩⟩ :=
  createResource_get_error fakeClient ⟨[], [], some ⟨"Forbidden", "services is forbidden"⟩⟩
    demoService "Service" "demo" "prod" ⟨"Forbidden", "services is forbidden"⟩
    rfl (by decide)

/-- C2: when the read of `createResource` reports not-found and the create then
fails with an already-exists error, no failure is logged and a requeue is
requested, but the error returned to the caller is that already-exists error,
not the `nil` error. -/
theorem createResource_already_exists {σ Obj : Type} (client : Client σ Obj) (cluster : σ)
    (resource : Obj) (resourceKind resourceName resourceNamespace : String)
    (e e' : errors.APIError)
    (hget : client.Get cluster ⟨resourceName, resourceNamespace⟩ resource = .error e)
    (hnf : errors.IsNotFound (some e) = true)
    (hcreate : (client.Create cluster resource).2 = .error e')
    (hae : errors.IsAlreadyExists (some e') = true) :
    (createResource client cluster resource resourceKind resourceName resourceNamespace).err =
        some e' ∧
      (createResource client cluster resource resourceKind resourceName resourceNamespace).err ≠
        none ∧
      (createResource client cluster resource resourceKind resourceName resourceNamespace).result =
        { Requeue := true, RequeueAfter := 0 } := by
  simp [createResource, hget, errOf, objAfter, hnf, hcreate, hae]

/-- The cache does not hold `demoService` yet and the store already does: the
read reports not-found, the create reports already-exists, and that error comes
back from `createResource`. -/
theorem createResource_already_exists_witness :
    (createResource fakeClient ⟨[], [demoService], none⟩ demoService "Service" "demo" "prod").err =
        some ⟨"AlreadyExists", "already exists"⟩ ∧
      (createResource fakeClient ⟨[], [demoService], none⟩ demoService "Service" "demo" "prod").err ≠
        none ∧
      (createResource fakeClient ⟨[], [demoService], none⟩ demoService "Service" "demo" "prod").result =
        { Requeue := true, RequeueAfter := 0 } :=
  createResource_already_exists fakeClient ⟨[], [demoService], none⟩ demoService
    "Service" "demo" "prod" ⟨"NotFound", "not found"⟩ ⟨"AlreadyExists", "already exists"⟩
    rfl (by decide) rfl (by decide)

/-! ## Probe parsing: the form without a quote -/

namespace strings

/-- A string without the separator has no position for it. -/
theorem indexChars_of_not_mem (sep : Char) (s : List Char) (h : sep ∉ s) :
    indexChars sep s = -1 := by
  induction s with
  | nil => rfl
  | cons c cs ih =>
    have hc : c ≠ sep := fun hc => h (by simp [hc])
    have hcs : sep ∉ cs := fun hcs => h (List.mem_cons_of_mem _ hcs)
    simp [indexChars, hc, ih hcs]

/-- A split always has a first piece. -/
theorem splitChars_ne_nil (sep : Char) (s : List Char) : splitChars sep s ≠ [] := by
  cases s with
  | nil => simp [splitChars]
  | cons c cs =>
    unfold splitChars
    split
    · simp
    · split <;> simp

/-- Joining the pieces of a split with the separator gives the string back. -/
theorem joinChars_splitChars (sep : Char) (s : List Char) :
    joinChars sep (splitChars sep s) = s := by
  induction s with
  | nil => rfl
  | cons c cs ih =>
    unfold splitChars
    split
    · rename_i hc
      cases hs : splitChars sep cs with
      | nil => exact absurd hs (splitChars_ne_nil sep cs)
      | cons piece rest =>
        rw [hs] at ih
        simp [joinChars, ih, hc]
    · cases hs : splitChars sep cs with
      | nil => exact absurd hs (splitChars_ne_nil sep cs)
      | cons piece rest =>
        rw [hs] at ih
        cases rest with
        | nil => simpa [joinChars] using ih
        | cons piece2 rest2 =>
          simp only [joinChars] at ih ⊢
          rw [← ih]
          rfl

/-- No piece of a split holds the separator, and a piece only holds characters
of the string. -/
theorem mem_splitChars (sep : Char) (s piece : List Char) (h : piece ∈ splitChars sep s) :
    sep ∉ piece ∧ ∀ c ∈ piece, c ∈ s := by
  induction s generalizing piece with
  | nil =>
    simp [splitChars] at h
    simp [h]
  | cons c cs ih =>
    unfold splitChars at h
    split at h
    · rcases List.mem_cons.mp h with rfl | h
      · simp
      · exact ⟨(ih piece h).1, fun d hd => List.mem_cons_of_mem _ ((ih piece h).2 d hd)⟩
    · rename_i hc
      cases hs : splitChars sep cs with
      | nil => exact absurd hs (splitChars_ne_nil sep cs)
      | cons first rest =>
        rw [hs] at h ih
        rcases List.mem_cons.mp h with rfl | h
        · have hf := ih first (List.mem_cons_self _ _)
          refine ⟨?_, ?_⟩
          · intro hmem
            rcases List.mem_cons.mp hmem with heq | hmem
            · exact hc heq.symm
            · exact hf.1 hmem
          · intro d hd
            rcases List.mem_cons.mp hd with rfl | hd
            · exact List.mem_cons_self _ _
            · exact List.mem_cons_of_mem _ (hf.2 d hd)
        · have hp := ih piece (List.mem_cons_of_mem _ h)
          exact ⟨hp.1, fun d hd => List.mem_cons_of_mem _ (hp.2 d hd)⟩

/-- A split has one more piece than the string has separators. -/
theorem length_splitChars (sep : Char) (s : List Char) :
    (splitChars sep s).length = s.count sep + 1 := by
  induction s with
  | nil => rfl
  | cons c cs ih =>
    unfold splitChars
    split
    · rename_i hc
      simp [ih, hc]
    · rename_i hc
      cases hs : splitChars sep cs with
      | nil => exact absurd hs (splitChars_ne_nil sep cs)
      | cons first rest =>
        rw [hs] at ih
        have hne : (c == sep) = false := by simpa using hc
        simp only [List.length_cons] at ih ⊢
        rw [List.count_cons, hne]
        simpa using ih

/-- A character of a joined list is the separator or lies in a piece. -/
theorem mem_joinChars (sep c : Char) (pieces : List (List Char)) (h : c ∈ joinChars sep pieces) :
    c = sep ∨ ∃ piece ∈ pieces, c ∈ piece := by
  induction pieces with
  | nil => simp [joinChars] at h
  | cons piece rest ih =>
    cases rest with
    | nil => exact Or.inr ⟨piece, List.mem_cons_self _ _, by simpa [joinChars] using h⟩
    | cons piece2 rest2 =>
      simp only [joinChars, List.mem_append, List.mem_cons] at h ih
      rcases h with h | h | h
      · exact Or.inr ⟨piece, List.mem_cons_self _ _, h⟩
      · exact Or.inl h
      · rcases ih h with h | ⟨q, hq, hcq⟩
        · exact Or.inl h
        · exact Or.inr ⟨q, List.mem_cons_of_mem _ (List.mem_cons.mpr hq), hcq⟩

/-- A string without the separator is its own single piece. -/
theorem splitChars_of_not_mem (sep : Char) (s : List Char) (h : sep ∉ s) :
    splitChars sep s = [s] := by
  induction s with
  | nil => rfl
  | cons c cs ih =>
    have hc : c ≠ sep := fun hc => h (by simp [hc])
    have hcs : sep ∉ cs := fun hcs => h (List.mem_cons_of_mem _ hcs)
    simp [splitChars, hc, ih hcs]

/-- The first piece of a split ends at the first separator. -/
theorem splitChars_append_sep (sep : Char) (s rest : List Char) (h : sep ∉ s) :
    splitChars sep (s ++ sep :: rest) = s :: splitChars sep rest := by
  induction s with
  | nil => simp [splitChars]
  | cons c cs ih =>
    have hc : c ≠ sep := fun hc => h (by simp [hc])
    have hcs : sep ∉ cs := fun hcs => h (List.mem_cons_of_mem _ hcs)
    simp [splitChars, hc, ih hcs]

/-- The space is a white-space character. -/
theorem isSpace_space : isSpace ' ' = true := by decide

/-- When the space is the only white space of a string, its words are the
non-empty pieces of its split at the spaces. -/
theorem fieldsAux_eq_filter (s cur : List Char)
    (hcur : ∀ c ∈ cur, isSpace c = false)
    (hs : ∀ c ∈ s, isSpace c = true → c = ' ') :
    fieldsAux s cur =
      (splitChars ' ' (cur.reverse ++ s)).filter (fun piece => decide (piece ≠ [])) := by
  have hnot : ∀ run : List Char, (∀ c ∈ run, isSpace c = false) → ' ' ∉ run.reverse := by
    intro run hrun hmem
    have := hrun ' ' (List.mem_reverse.mp hmem)
    rw [isSpace_space] at this
    exact absurd this (by simp)
  induction s generalizing cur with
  | nil =>
    rw [List.append_nil, splitChars_of_not_mem _ _ (hnot cur hcur)]
    by_cases hc : cur = []
    · simp [fieldsAux, hc]
    · simp [fieldsAux, hc]
  | cons c cs ih =>
    have hcs : ∀ d ∈ cs, isSpace d = true → d = ' ' :=
      fun d hd => hs d (List.mem_cons_of_mem _ hd)
    unfold fieldsAux
    split
    · rename_i hsp
      have hc : c = ' ' := hs c (List.mem_cons_self _ _) hsp
      subst hc
      rw [splitChars_append_sep _ _ _ (hnot cur hcur)]
      have ih0 := ih [] (by simp) hcs
      simp only [List.reverse_nil, List.nil_append] at ih0
      by_cases hc : cur = []
      · simp [hc, ih0]
      · simp [hc, ih0]
    · rename_i hsp
      have hcur2 : ∀ d ∈ c :: cur, isSpace d = false := by
        intro d hd
        rcases List.mem_cons.mp hd with rfl | hd
        · simpa using hsp
        · exact hcur d hd
      rw [ih (c :: cur) hcur2 hcs]
      simp

/-- A word is not empty and holds no white space. -/
theorem mem_fieldsAux (s cur word : List Char)
    (hcur : ∀ c ∈ cur, isSpace c = false) (h : word ∈ fieldsAux s cur) :
    word ≠ [] ∧ ∀ c ∈ word, isSpace c = false := by
  induction s generalizing cur with
  | nil =>
    unfold fieldsAux at h
    split at h
    · simp at h
    · rename_i hc
      rw [List.mem_singleton] at h
      subst h
      exact ⟨by simpa using hc, fun c hcm => hcur c (List.mem_reverse.mp hcm)⟩
  | cons c cs ih =>
    unfold fieldsAux at h
    split at h
    · split at h
      · exact ih [] (by simp) h
      · rename_i hc
        rcases List.mem_cons.mp h with rfl | h
        · exact ⟨by simpa using hc, fun c hcm => hcur c (List.mem_reverse.mp hcm)⟩
        · exact ih [] (by simp) h
    · rename_i hsp
      refine ih (c :: cur) ?_ h
      intro d hd
      rcases List.mem_cons.mp hd with rfl | hd
      · simpa using hsp
      · exact hcur d hd

end strings

/-- C10, as stated, fails on `echo  ok` (two spaces, no quote): the command is
`echo`, the empty token, `ok`, which holds an empty token and is not the
sequence of the white-space separated words `echo`, `ok`. -/
theorem generateCustomProbe_two_spaces :
    "echo  ok" ≠ "" ∧ dquote ∉ "echo  ok".data ∧
      generateCustomProbe "echo  ok" =
        { Handler := { Exec := some { Command := ["echo", "", "ok"] }, HTTPGet := none } } ∧
      strings.Fields "echo  ok" = ["echo", "ok"] ∧
      ¬ (generateCustomProbe "echo  ok" =
            { Handler := { Exec := some { Command := strings.Fields "echo  ok" },
                           HTTPGet := none } } ∧
          "" ∉ strings.Split "echo  ok" ' ') := by
  decide

/-- C10, amended: for a probe script without a `"` character,
`generateCustomProbe` returns an exec probe (no HTTP GET) whose command is the
script cut at every single space: joined with single spaces the tokens give
the script back, there is one more token than there are spaces, and no token
holds a space or a `"`.  The command is the sequence of the white-space
separated words of the script exactly when no token is empty and the space is
the only white space in the script. -/
theorem generateCustomProbe_no_quote (probeScript : String)
    (hquote : dquote ∉ probeScript.data) :
    generateCustomProbe probeScript =
        { Handler := { Exec := some { Command := strings.Split probeScript ' ' },
                       HTTPGet := none } } ∧
      String.mk (strings.joinChars ' ' ((strings.Split probeScript ' ').map String.data)) =
        probeScript ∧
      (strings.Split probeScript ' ').length = probeScript.data.count ' ' + 1 ∧
      (∀ token ∈ strings.Split probeScript ' ', ' ' ∉ token.data ∧ dquote ∉ token.data) ∧
      (strings.Split probeScript ' ' = strings.Fields probeScript ↔
        "" ∉ strings.Split probeScript ' ' ∧
          ∀ c ∈ probeScript.data, strings.isSpace c = true → c = ' ') := by
  have hmap : ∀ pieces : List (List Char), (pieces.map String.mk).map String.data = pieces := by
    intro pieces
    induction pieces with
    | nil => rfl
    | cons piece rest ih => rw [List.map_cons, List.map_cons, ih]
  have hinj : ∀ a b : List (List Char), a.map String.mk = b.map String.mk → a = b := by
    intro a b hab
    rw [← hmap a, ← hmap b, hab]
  have hempty : "" ∈ strings.Split probeScript ' ' ↔
      [] ∈ strings.splitChars ' ' probeScript.data := by
    unfold strings.Split
    constructor
    · intro h
      obtain ⟨piece, hpiece, heq⟩ := List.mem_map.mp h
      have : piece = [] := by
        have := congrArg String.data heq
        simpa using this
      exact this ▸ hpiece
    · intro h
      exact List.mem_map.mpr ⟨[], h, rfl⟩
  refine ⟨?_, ?_, ?_, ?_, ?_⟩
  · simp [generateCustomProbe, strings.Index, strings.indexChars_of_not_mem _ _ hquote]
  · unfold strings.Split
    rw [hmap, strings.joinChars_splitChars]
  · unfold strings.Split
    rw [List.length_map, strings.length_splitChars]
  · intro token htoken
    unfold strings.Split at htoken
    obtain ⟨piece, hpiece, rfl⟩ := List.mem_map.mp htoken
    have h := strings.mem_splitChars ' ' probeScript.data piece hpiece
    exact ⟨h.1, fun hq => hquote (h.2 _ hq)⟩
  · constructor
    · intro heq
      have heq2 : strings.splitChars ' ' probeScript.data =
          strings.fieldsAux probeScript.data [] := hinj _ _ heq
      refine ⟨?_, ?_⟩
      · intro hmem
        have hnil := hempty.mp hmem
        rw [heq2] at hnil
        exact (strings.mem_fieldsAux _ [] [] (by simp) hnil).1 rfl
      · intro c hc hsp
        have hjoin : c ∈ strings.joinChars ' ' (strings.splitChars ' ' probeScript.data) := by
          rw [strings.joinChars_splitChars]
          exact hc
        rcases strings.mem_joinChars ' ' c _ hjoin with h | ⟨piece, hpiece, hcp⟩
        · exact h
        · rw [heq2] at hpiece
          have := (strings.mem_fieldsAux _ [] piece (by simp) hpiece).2 c hcp
          rw [hsp] at this
          exact absurd this (by simp)
    · rintro ⟨hne, hsp⟩
      have hnil : [] ∉ strings.splitChars ' ' probeScript.data := fun h => hne (hempty.mpr h)
      have hfields := strings.fieldsAux_eq_filter probeScript.data [] (by simp) hsp
      simp only [List.reverse_nil, List.nil_append] at hfields
      unfold strings.Split strings.Fields
      rw [hfields]
      congr 1
      symm
      rw [List.filter_eq_self]
      intro piece hpiece
      have : piece ≠ [] := fun h => hnil (h ▸ hpiece)
      simpa using this

/-- The script `cat /tmp/healthy` has no quote: its command is `cat`,
`/tmp/healthy`, and is the white-space split of the script. -/
theorem generateCustomProbe_no_quote_witness :
    dquote ∉ "cat /tmp/healthy".data ∧
      generateCustomProbe "cat /tmp/healthy" =
        { Handler := { Exec := some { Command := ["cat", "/tmp/healthy"] }, HTTPGet := none } } ∧
      strings.Split "cat /tmp/healthy" ' ' = strings.Fields "cat /tmp/healthy" :=
  ⟨by decide,
    (generateCustomProbe_no_quote "cat /tmp/healthy" (by decide)).1.trans (by decide),
    (generateCustomProbe_no_quote "cat /tmp/healthy" (by decide)).2.2.2.2.mpr (by decide)⟩

/-! ## Probes of the pod template -/

/-- A custom probe is an exec probe without HTTP GET. -/
theorem generateCustomProbe_exec (probeScript : String) :
    (generateCustomProbe probeScript).Handler.Exec ≠ none ∧
      (generateCustomProbe probeScript).Handler.HTTPGet = none := by
  simp [generateCustomProbe]

/-- C11: `generateLivenessProbe` and `generateReadinessProbe` each return the HTTP
GET probe with path `/health` on port 8080 and no exec action when the health
specification is absent or its liveness, respectively readiness, script is
empty; they return the custom probe of the script, an exec probe without HTTP
GET, when that script is not empty, and an exec action in no other case.  The
container of the pod template of a custom resource gets these two probes, for
the health specification of its populated image source. -/
theorem generateProbes_health (r : ReconcileWebServer) (webServer : WebServer) (image : String)
    (health : Option WebServerHealthCheckSpec) :
    ((health = none ∨ ∃ h, health = some h ∧ h.ServerLivenessScript = "") →
        generateLivenessProbe health =
          { Handler := { Exec := none, HTTPGet := some { Path := "/health", Port := 8080 } } }) ∧
      ((health = none ∨ ∃ h, health = some h ∧ h.ServerReadinessScript = "") →
        generateReadinessProbe health =
          { Handler := { Exec := none, HTTPGet := some { Path := "/health", Port := 8080 } } }) ∧
      (∀ h, health = some h → h.ServerLivenessScript ≠ "" →
        generateLivenessProbe health = generateCustomProbe h.ServerLivenessScript ∧
          (generateLivenessProbe health).Handler.HTTPGet = none) ∧
      (∀ h, health = some h → h.ServerReadinessScript ≠ "" →
        generateReadinessProbe health = generateCustomProbe h.ServerReadinessScript ∧
          (generateReadinessProbe health).Handler.HTTPGet = none) ∧
      ((generateLivenessProbe health).Handler.Exec ≠ none ↔
        ∃ h, health = some h ∧ h.ServerLivenessScript ≠ "") ∧
      ((generateReadinessProbe health).Handler.Exec ≠ none ↔
        ∃ h, health = some h ∧ h.ServerReadinessScript ≠ "") ∧
      (∀ webImage, webServer.Spec.WebImage = some webImage →
        ∃ template, generatePodTemplate r webServer image = some template ∧
          template.Spec.Containers.map (fun c => (c.LivenessProbe, c.ReadinessProbe)) =
            [(some (generateLivenessProbe webImage.WebServerHealthCheck),
              some (generateReadinessProbe webImage.WebServerHealthCheck))]) ∧
      (∀ webImageStream, webServer.Spec.WebImage = none →
        webServer.Spec.WebImageStream = some webImageStream →
        ∃ template, generatePodTemplate r webServer image = some template ∧
          template.Spec.Containers.map (fun c => (c.LivenessProbe, c.ReadinessProbe)) =
            [(some (generateLivenessProbe webImageStream.WebServerHealthCheck),
              some (generateReadinessProbe webImageStream.WebServerHealthCheck))]) := by
  refine ⟨?_, ?_, ?_, ?_, ?_, ?_, ?_, ?_⟩
  · rintro (rfl | ⟨h, rfl, hs⟩)
    · simp [generateLivenessProbe]
    · simp [generateLivenessProbe, hs]
  · rintro (rfl | ⟨h, rfl, hs⟩)
    · simp [generateReadinessProbe]
    · simp [generateReadinessProbe, hs]
  · rintro h rfl hs
    have hgen : generateLivenessProbe (some h) = generateCustomProbe h.ServerLivenessScript := by
      simp [generateLivenessProbe, hs]
    exact ⟨hgen, hgen ▸ (generateCustomProbe_exec _).2⟩
  · rintro h rfl hs
    have hgen : generateReadinessProbe (some h) = generateCustomProbe h.ServerReadinessScript := by
      simp [generateReadinessProbe, hs]
    exact ⟨hgen, hgen ▸ (generateCustomProbe_exec _).2⟩
  · cases health with
    | none => simp [generateLivenessProbe]
    | some h =>
      by_cases hs : h.ServerLivenessScript = ""
      · simp [generateLivenessProbe, hs]
      · simp [generateLivenessProbe, hs, generateCustomProbe]
  · cases health with
    | none => simp [generateReadinessProbe]
    | some h =>
      by_cases hs : h.ServerReadinessScript = ""
      · simp [generateReadinessProbe, hs]
      · simp [generateReadinessProbe, hs, generateCustomProbe]
  · intro webImage himg
    simp [generatePodTemplate, himg]
  · intro webImageStream himg hstream
    simp [generatePodTemplate, himg, hstream]

/-! ## The selector of the pod listing -/

/-- C12, as stated, fails on a custom resource that carries the label
`WebServer=other`: the selector holds `WebServer=other`, not the name `demo-cr`
of the custom resource. -/
theorem generateLabelsForWeb_relabelled :
    relabelledWebServer.Name = "demo-cr" ∧
      relabelledWebServer.Labels "WebServer" = some "other" ∧
      generateLabelsForWeb relabelledWebServer "WebServer" = some "other" ∧
      generateLabelsForWeb relabelledWebServer "WebServer" ≠ some relabelledWebServer.Name := by
  decide

/-- C12, amended: the selector returned by `generateLabelsForWeb` holds every
label of the custom resource with the value the custom resource gives it; it
holds `deploymentConfig` with the application name and `WebServer` with the
name of the custom resource unless the custom resource carries a label of that
key, whose value then takes the place; and it holds no other key. -/
theorem generateLabelsForWeb_union (webServer : WebServer) :
    (∀ key value, webServer.Labels key = some value →
        generateLabelsForWeb webServer key = some value) ∧
      (webServer.Labels "deploymentConfig" = none →
        generateLabelsForWeb webServer "deploymentConfig" =
          some webServer.Spec.ApplicationName) ∧
      (webServer.Labels "WebServer" = none →
        generateLabelsForWeb webServer "WebServer" = some webServer.Name) ∧
      (∀ key, generateLabelsForWeb webServer key ≠ none →
        key = "deploymentConfig" ∨ key = "WebServer" ∨ webServer.Labels key ≠ none) := by
  refine ⟨?_, ?_, ?_, ?_⟩
  · intro key value h
    simp [generateLabelsForWeb, StringMap.assignAll, h]
  · intro h
    simp [generateLabelsForWeb, StringMap.assignAll, StringMap.set, h]
  · intro h
    simp [generateLabelsForWeb, StringMap.assignAll, StringMap.set, h]
  · intro key h
    by_cases hl : webServer.Labels key = none
    · by_cases h1 : key = "WebServer"
      · exact Or.inr (Or.inl h1)
      · by_cases h2 : key = "deploymentConfig"
        · exact Or.inl h2
        · exact absurd (by simp [generateLabelsForWeb, StringMap.assignAll, StringMap.set,
            StringMap.empty, hl, h1, h2]) h
    · exact Or.inr (Or.inr hl)

/-! ## Environment of the container -/

/-- C13: `generateEnvVars` returns `KUBERNETES_NAMESPACE` first, with the namespace
of the custom resource when KUBEPing discovery is configured and session
clustering is enabled and with `webserver-<crName>` otherwise, then `ENV_FILES`
with the value `/test/my-files/test.sh` exactly when session clustering is
enabled, and nothing else. -/
theorem generateEnvVars_eq (r : ReconcileWebServer) (webServer : WebServer) :
    generateEnvVars r webServer =
      { Name := "KUBERNETES_NAMESPACE",
        Value := if r.useKUBEPing = true ∧ webServer.Spec.UseSessionClustering = true
          then webServer.Namespace else "webserver-" ++ webServer.Name } ::
        (if webServer.Spec.UseSessionClustering = true
          then [{ Name := "ENV_FILES", Value := "/test/my-files/test.sh" }] else []) := by
  cases hk : r.useKUBEPing <;> cases hc : webServer.Spec.UseSessionClustering <;>
    simp [generateEnvVars, hk, hc]

/-! ## Volumes of the pod template -/

/-- The pod template of a custom resource with a populated image source holds
the volume mounts of `generateVolumeMounts` on its container and the volumes of
`generateVolumes`. -/
theorem generatePodTemplate_volumes (r : ReconcileWebServer) (webServer : WebServer)
    (image : String) (template : corev1.PodTemplateSpec)
    (h : generatePodTemplate r webServer image = some template) :
    template.Spec.Containers.map (fun c => c.VolumeMounts) = [generateVolumeMounts webServer] ∧
      template.Spec.Volumes = generateVolumes webServer := by
  unfold generatePodTemplate at h
  cases himg : webServer.Spec.WebImage with
  | some webImage =>
    simp [himg] at h
    subst h
    simp
  | none =>
    cases hstream : webServer.Spec.WebImageStream with
    | some webImageStream =>
      simp [himg, hstream] at h
      subst h
      simp
    | none => simp [himg, hstream] at h

/-- C14: for a custom resource whose prebuilt image carries a web archive, the
pod template exists, its container mounts the volume `app-volume` with sub-path
`<archiveName>.war` at `<deployPath><archiveName>.war`, and that volume is the
PersistentVolumeClaim `<applicationName>`, read-only; the mount and the volume
come last, after those of session clustering.  For a custom resource without a
web archive the mounts and volumes are only those of session clustering: none
is named `app-volume` and no volume is a PersistentVolumeClaim. -/
theorem generateVolumes_web_archive (r : ReconcileWebServer) (webServer : WebServer)
    (image : String) :
    (∀ webImage webApp, webServer.Spec.WebImage = some webImage →
        webImage.WebApp = some webApp →
        ∃ template, generatePodTemplate r webServer image = some template ∧
          template.Spec.Containers.map (fun c => c.VolumeMounts) =
            [generateVolumeMounts webServer] ∧
          template.Spec.Volumes = generateVolumes webServer ∧
          generateVolumeMounts webServer =
            (if webServer.Spec.UseSessionClustering = true
              then [{ Name := "webserver-" ++ webServer.Name, MountPath := "/test/my-files" }]
              else []) ++
            [{ Name := "app-volume",
               MountPath := webApp.DeployPath ++ (webApp.Name ++ ".war"),
               SubPath := webApp.Name ++ ".war",
               ReadOnly := false }] ∧
          generateVolumes webServer =
            (if webServer.Spec.UseSessionClustering = true
              then [{ Name := "webserver-" ++ webServer.Name,
                      VolumeSource :=
                        { ConfigMap := some { Name := "webserver-" ++ webServer.Name } } }]
              else []) ++
            [{ Name := "app-volume",
               VolumeSource :=
                 { PersistentVolumeClaim :=
                     some { ClaimName := webServer.Spec.ApplicationName, ReadOnly := true },
                   ConfigMap := none } }]) ∧
      ((webServer.Spec.WebImage = none ∨
          ∃ webImage, webServer.Spec.WebImage = some webImage ∧ webImage.WebApp = none) →
        generateVolumeMounts webServer =
            (if webServer.Spec.UseSessionClustering = true
              then [{ Name := "webserver-" ++ webServer.Name, MountPath := "/test/my-files" }]
              else []) ∧
          generateVolumes webServer =
            (if webServer.Spec.UseSessionClustering = true
              then [{ Name := "webserver-" ++ webServer.Name,
                      VolumeSource :=
                        { ConfigMap := some { Name := "webserver-" ++ webServer.Name } } }]
              else []) ∧
          (∀ mount ∈ generateVolumeMounts webServer,
            mount.Name ≠ "app-volume" ∧ mount.SubPath = "") ∧
          (∀ volume ∈ generateVolumes webServer,
            volume.Name ≠ "app-volume" ∧ volume.VolumeSource.PersistentVolumeClaim = none)) := by
  have hname : "webserver-" ++ webServer.Name ≠ "app-volume" := by
    intro hcontra
    have hdata := congrArg String.data hcontra
    rw [String.data_append] at hdata
    have hhead : some 'w' = some 'a' := congrArg List.head? hdata
    exact absurd hhead (by decide)
  refine ⟨?_, ?_⟩
  · intro webImage webApp himg happ
    have htemplate : ∃ template, generatePodTemplate r webServer image = some template := by
      simp [generatePodTemplate, himg]
    obtain ⟨template, htemplate⟩ := htemplate
    have hvol := generatePodTemplate_volumes r webServer image template htemplate
    refine ⟨template, htemplate, hvol.1, hvol.2, ?_, ?_⟩
    · cases hc : webServer.Spec.UseSessionClustering <;>
        simp [generateVolumeMounts, himg, happ, hc]
    · cases hc : webServer.Spec.UseSessionClustering <;>
        simp [generateVolumes, himg, happ, hc]
  · intro hno
    have hmounts : generateVolumeMounts webServer =
        (if webServer.Spec.UseSessionClustering = true
          then [{ Name := "webserver-" ++ webServer.Name, MountPath := "/test/my-files" }]
          else []) := by
      rcases hno with himg | ⟨webImage, himg, happ⟩
      · cases hc : webServer.Spec.UseSessionClustering <;>
          simp [generateVolumeMounts, himg, hc]
      · cases hc : webServer.Spec.UseSessionClustering <;>
          simp [generateVolumeMounts, himg, happ, hc]
    have hvolumes : generateVolumes webServer =
        (if webServer.Spec.UseSessionClustering = true
          then [{ Name := "webserver-" ++ webServer.Name,
                  VolumeSource :=
                    { ConfigMap := some { Name := "webserver-" ++ webServer.Name } } }]
          else []) := by
      rcases hno with himg | ⟨webImage, himg, happ⟩
      · cases hc : webServer.Spec.UseSessionClustering <;>
          simp [generateVolumes, himg, hc]
      · cases hc : webServer.Spec.UseSessionClustering <;>
          simp [generateVolumes, himg, happ, hc]
    refine ⟨hmounts, hvolumes, ?_, ?_⟩
    · intro mount hmount
      rw [hmounts] at hmount
      cases hc : webServer.Spec.UseSessionClustering
      · simp [hc] at hmount
      · simp [hc] at hmount
        subst hmount
        exact ⟨hname, rfl⟩
    · intro volume hvolume
      rw [hvolumes] at hvolume
      cases hc : webServer.Spec.UseSessionClustering
      · simp [hc] at hvolume
      · simp [hc] at hvolume
        subst hvolume
        exact ⟨hname, rfl⟩

/-! ## Triggers of the build configuration -/

/-- C15: for a custom resource with a build pipeline, `generateBuildTriggerPolicy`
returns the `ImageChange` trigger and the `ConfigChange` trigger, then a
`GitHub` trigger with the configured secret exactly when the GitHub webhook
secret is not empty, then a `Generic` trigger with the configured secret exactly
when the generic webhook secret is not empty, and no other trigger; without web
sources or without build parameters no secret is configured and the two first
triggers are all.  When the web sources are present the BuildConfig exists and
holds this policy. -/
theorem generateBuildTriggerPolicy_eq (r : ReconcileWebServer) (webServer : WebServer)
    (webImageStream : webserversv1alpha1.WebImageStreamSpec)
    (hstream : webServer.Spec.WebImageStream = some webImageStream) :
    ((webImageStream.WebSources = none ∨
          ∃ sources, webImageStream.WebSources = some sources ∧
            sources.WebSourcesParams = none) →
        generateBuildTriggerPolicy webServer =
          some [{ Type_ := "ImageChange", ImageChange := some {} }, { Type_ := "ConfigChange" }]) ∧
      (∀ sources params, webImageStream.WebSources = some sources →
        sources.WebSourcesParams = some params →
        generateBuildTriggerPolicy webServer =
          some ([{ Type_ := "ImageChange", ImageChange := some {} }, { Type_ := "ConfigChange" }] ++
            (if params.GithubWebhookSecret ≠ ""
              then [{ Type_ := "GitHub",
                      GitHubWebHook := some { Secret := params.GithubWebhookSecret } }]
              else []) ++
            (if params.GenericWebhookSecret ≠ ""
              then [{ Type_ := "Generic",
                      GenericWebHook := some { Secret := params.GenericWebhookSecret } }]
              else []))) ∧
      (∀ sources, webImageStream.WebSources = some sources →
        ∃ buildConfig, generateBuildConfig r webServer = some buildConfig ∧
          generateBuildTriggerPolicy webServer = some buildConfig.Spec.Triggers) := by
  refine ⟨?_, ?_, ?_⟩
  · rintro (hsrc | ⟨sources, hsrc, hparams⟩)
    · simp [generateBuildTriggerPolicy, hstream, hsrc]
    · simp [generateBuildTriggerPolicy, hstream, hsrc, hparams]
  · intro sources params hsrc hparams
    by_cases hgh : params.GithubWebhookSecret = "" <;>
      by_cases hgen : params.GenericWebhookSecret = "" <;>
      simp [generateBuildTriggerPolicy, hstream, hsrc, hparams, hgh, hgen]
  · intro sources hsrc
    have hpolicy : ∃ triggers, generateBuildTriggerPolicy webServer = some triggers := by
      cases hparams : sources.WebSourcesParams <;>
        simp [generateBuildTriggerPolicy, hstream, hsrc, hparams]
    have henv : ∃ env, generateEnvBuild webServer = some env := by
      cases hparams : sources.WebSourcesParams <;>
        simp [generateEnvBuild, hstream, hsrc, hparams]
    obtain ⟨triggers, hpolicy⟩ := hpolicy
    obtain ⟨env, henv⟩ := henv
    simp [generateBuildConfig, hstream, hsrc, hpolicy, henv]

/-- The pipeline of `pipelineWebServer` configures a GitHub webhook secret and
no generic one: its policy is `ImageChange`, `ConfigChange`, `GitHub`. -/
theorem generateBuildTriggerPolicy_eq_witness :
    generateBuildTriggerPolicy pipelineWebServer =
        some [{ Type_ := "ImageChange", ImageChange := some {} }, { Type_ := "ConfigChange" },
              { Type_ := "GitHub", GitHubWebHook := some { Secret := "github-secret" } }] ∧
      ∃ buildConfig, generateBuildConfig demoReconciler pipelineWebServer = some buildConfig ∧
        generateBuildTriggerPolicy pipelineWebServer = some buildConfig.Spec.Triggers :=
  ⟨((generateBuildTriggerPolicy_eq demoReconciler pipelineWebServer pipelineStream rfl).2.1
      _ githubParams rfl rfl).trans (by decide),
    (generateBuildTriggerPolicy_eq demoReconciler pipelineWebServer pipelineStream rfl).2.2
      _ rfl⟩

/-! ## Defaults of the web archive -/

/-- C16: for a custom resource with a web archive, `setDefaultValues` returns the
custom resource with an empty archive name set to `ROOT`, an empty deploy path
set to `/deployments/`, an empty size limit set to `1Gi` and an empty build
script set to the script that `generateWebAppBuildScript` synthesizes for the
custom resource with the name default applied; each of these four fields that
is not empty is kept, and so is every other field.  For a custom resource
without a web archive it returns the custom resource as it is. -/
theorem setDefaultValues_eq (webServer : WebServer) :
    (∀ webImage webApp, webServer.Spec.WebImage = some webImage →
        webImage.WebApp = some webApp →
        ∃ script,
          generateWebAppBuildScript
              { webServer with
                Spec := { webServer.Spec with
                  WebImage := some { webImage with
                    WebApp := some { webApp with
                      Name := if webApp.Name = "" then "ROOT" else webApp.Name } } } } =
            some script ∧
          setDefaultValues webServer =
            some { webServer with
              Spec := { webServer.Spec with
                WebImage := some { webImage with
                  WebApp := some
                    { Name := if webApp.Name = "" then "ROOT" else webApp.Name,
                      SourceRepositoryURL := webApp.SourceRepositoryURL,
                      SourceRepositoryRef := webApp.SourceRepositoryRef,
                      SourceRepositoryContextDir := webApp.SourceRepositoryContextDir,
                      DeployPath :=
                        if webApp.DeployPath = "" then "/deployments/" else webApp.DeployPath,
                      ApplicationSizeLimit :=
                        if webApp.ApplicationSizeLimit = "" then "1Gi"
                        else webApp.ApplicationSizeLimit,
                      Builder :=
                        { Image := webApp.Builder.Image,
                          ApplicationBuildScript :=
                            if webApp.Builder.ApplicationBuildScript = "" then script
                            else webApp.Builder.ApplicationBuildScript } } } } }) ∧
      ((webServer.Spec.WebImage = none ∨
          ∃ webImage, webServer.Spec.WebImage = some webImage ∧ webImage.WebApp = none) →
        setDefaultValues webServer = some webServer) := by
  refine ⟨?_, ?_⟩
  · intro webImage webApp himg happ
    refine ⟨_, by simp [generateWebAppBuildScript]; rfl, ?_⟩
    by_cases hn : webApp.Name = "" <;> by_cases hd : webApp.DeployPath = "" <;>
      by_cases hl : webApp.ApplicationSizeLimit = "" <;>
      by_cases hs : webApp.Builder.ApplicationBuildScript = "" <;>
      simp [setDefaultValues, himg, happ, hn, hd, hl, hs, storeWebApp, generateWebAppBuildScript]
  · rintro (himg | ⟨webImage, himg, happ⟩)
    · simp [setDefaultValues, himg]
    · simp [setDefaultValues, himg, happ]

/-! ## The synthesized build script -/

/-- C17: the script that `generateWebAppBuildScript` synthesizes for a web archive
holds the source repository URL of the archive verbatim, in the assignment of
the variable `webAppSourceRepositoryURL`; after that assignment it holds a
guard that tests this variable for emptiness, prints a diagnostic and exits
with status 1; and the clone step, `git clone` of this variable, comes after
the guard. -/
theorem generateWebAppBuildScript_guard (webServer : WebServer)
    (webImage : webserversv1alpha1.WebImageSpec) (webApp : webserversv1alpha1.WebAppSpec)
    (himg : webServer.Spec.WebImage = some webImage) (happ : webImage.WebApp = some webApp) :
    ∃ head middle tail : String,
      generateWebAppBuildScript webServer =
        some (head ++
          ("webAppSourceRepositoryURL=" ++ webApp.SourceRepositoryURL ++ ";") ++
          middle ++
          ("if [ -z $\x7bwebAppSourceRepositoryURL\x7d ]; then\n" ++
           "\t\t\techo \"Need an URL like https://github.com/jfclere/demo-webapp.git\";\n" ++
           "\t\t\texit 1;\n" ++
           "\t\tfi;") ++
          "\n\n\t\t" ++
          "git clone $\x7bwebAppSourceRepositoryURL\x7d;" ++
          tail) := by
  refine ⟨"\n\t\twebAppWarFileName=" ++ (webApp.Name ++ ".war") ++ ";\n\t\t",
    "\n\t\twebAppSourceRepositoryRef=" ++ webApp.SourceRepositoryRef ++
      ";\n\t\twebAppSourceRepositoryContextDir=" ++ webApp.SourceRepositoryContextDir ++
      (";\n" ++
       "\n" ++
       "\t\t# Some pods don't have root privileges, so the build takes place in /tmp\n" ++
       "\t\tcd tmp;\n" ++
       "\n" ++
       "\t\t# Create a custom .m2 repo in a location where no root privileges are required\n" ++
       "\t\tmkdir -p /tmp/.m2/repo;\n" ++
       "\n" ++
       "\t\t# Create custom maven settings that change the location of the .m2 repo\n" ++
       "\t\techo '<settings xmlns=\"http://maven.apache.org/SETTINGS/1.0.0\" xmlns:xsi=\"http://www.w3.org/2001/XMLSchema-instance\"' >> /tmp/.m2/settings.xml\n" ++
       "\t\techo 'xsi:schemaLocation=\"http://maven.apache.org/SETTINGS/1.0.0 https://maven.apache.org/xsd/settings-1.0.0.xsd\">' >> /tmp/.m2/settings.xml\n" ++
       "\t\techo '<localRepository>/tmp/.m2/repo</localRepository>' >> /tmp/.m2/settings.xml\n" ++
       "\t\techo '</settings>' >> /tmp/.m2/settings.xml\n" ++
       "\n" ++
       "\t\t"),
    ("\n" ++
     "\t\tif [ $? -ne 0 ]; then\n" ++
     "\t\t\techo \"Can't clone $\x7bwebAppSourceRepositoryURL\x7d\";\n" ++
     "\t\t\texit 1;\n" ++
     "\t\tfi;\n" ++
     "\n" ++
     "\t\t# Get the name of the source code directory\n" ++
     "\t\tDIR=$(echo $\x7bwebAppSourceRepositoryURL##*/\x7d);\n" ++
     "\t\tDIR=$(echo $\x7bDIR%.*\x7d);\n" ++
     "\n" ++
     "\t\tcd $\x7bDIR\x7d;\n" ++
     "\n" ++
     "\t\tif [ ! -z $\x7bwebAppSourceRepositoryRef\x7d ]; then\n" ++
     "\t\t\tgit checkout $\x7bwebAppSourceRepositoryRef\x7d;\n" ++
     "\t\tfi;\n" ++
     "\n" ++
     "\t\tif [ ! -z $\x7bwebAppSourceRepositoryContextDir\x7d ]; then\n" ++
     "\t\t\tcd $\x7bwebAppSourceRepositoryContextDir\x7d;\n" ++
     "\t\tfi;\n" ++
     "\n" ++
     "\t\t# Builds the webapp using the custom maven settings\n" ++
     "\t\tmvn clean install -gs /tmp/.m2/settings.xml;\n" ++
     "\t\tif [ $? -ne 0 ]; then\n" ++
     "\t\t\techo \"mvn install failed please check the pom.xml in $\x7bwebAppSourceRepositoryURL\x7d\";\n" ++
     "\t\t\texit 1;\n" ++
     "\t\tfi\n" ++
     "\n" ++
     "\t\t# Copies the resulting war to the mounted persistent volume\n" ++
     "\t\tcp target/*.war /mnt/$\x7bwebAppWarFileName\x7d;"), ?_⟩
  simp only [generateWebAppBuildScript, himg, happ, Option.bind_eq_bind, Option.some_bind,
    Option.pure_def, Option.some.injEq]
  apply String.ext
  simp only [String.data_append, List.append_assoc]
  rfl

/-- The script for the web archive of `archiveWebServer` assigns its repository
URL, then guards it, then clones. -/
theorem generateWebAppBuildScript_guard_witness :
    ∃ head middle tail : String,
      generateWebAppBuildScript archiveWebServer =
        some (head ++
          ("webAppSourceRepositoryURL=" ++ rootWebApp.SourceRepositoryURL ++ ";") ++
          middle ++
          ("if [ -z $\x7bwebAppSourceRepositoryURL\x7d ]; then\n" ++
           "\t\t\techo \"Need an URL like https://github.com/jfclere/demo-webapp.git\";\n" ++
           "\t\t\texit 1;\n" ++
           "\t\tfi;") ++
          "\n\n\t\t" ++
          "git clone $\x7bwebAppSourceRepositoryURL\x7d;" ++
          tail) :=
  generateWebAppBuildScript_guard archiveWebServer archiveImage rootWebApp rfl rfl

/-! ## The platform capability -/

/-- C18: `isOpenShift` returns `true` exactly when the discovery client is
created, the enumeration of the API groups succeeds and a group of the
catalogue is named `route.openshift.io`; when the creation of the client or the
enumeration fails it returns `false`, and it has no error to return. -/
theorem isOpenShift_iff {Config DiscoveryClient : Type}
    (discovery : DiscoveryLibrary Config DiscoveryClient) (c : Config) :
    (isOpenShift discovery c = true ↔
        ∃ dcclient apiList,
          discovery.NewDiscoveryClientForConfig c = .ok dcclient ∧
            discovery.ServerGroups dcclient = .ok apiList ∧
            ∃ v ∈ apiList.Groups, v.Name = "route.openshift.io") ∧
      (∀ err, discovery.NewDiscoveryClientForConfig c = .error err →
        isOpenShift discovery c = false) ∧
      (∀ dcclient err, discovery.NewDiscoveryClientForConfig c = .ok dcclient →
        discovery.ServerGroups dcclient = .error err → isOpenShift discovery c = false) := by
  refine ⟨?_, ?_, ?_⟩
  · unfold isOpenShift
    cases hnew : discovery.NewDiscoveryClientForConfig c with
    | error err => simp
    | ok dcclient =>
      cases hgroups : discovery.ServerGroups dcclient with
      | error err => simp [hgroups]
      | ok apiList => simp [hgroups]
  · intro err hnew
    simp [isOpenShift, hnew]
  · intro dcclient err hnew hgroups
    simp [isOpenShift, hnew, hgroups]

/-! ## Names and labels of the generated objects -/

namespace controllerutil

/-- Setting the owner changes neither the name, nor the namespace, nor the
labels of an object. -/
theorem SetControllerReference_meta (owner : WebServer) (object : metav1.ObjectMeta)
    (scheme : runtime.Scheme) :
    (SetControllerReference owner object scheme).Name = object.Name ∧
      (SetControllerReference owner object scheme).Namespace = object.Namespace ∧
      (SetControllerReference owner object scheme).Labels = object.Labels := by
  unfold SetControllerReference
  cases scheme.WebServerKind <;> simp

end controllerutil

/-- The labels of the pod template: `application`, `deploymentConfig` and
`WebServer`. -/
theorem generatePodTemplate_labels (r : ReconcileWebServer) (webServer : WebServer)
    (image : String) (template : corev1.PodTemplateSpec)
    (h : generatePodTemplate r webServer image = some template) :
    template.ObjectMeta.Labels =
      ((StringMap.empty.set "application" webServer.Spec.ApplicationName).set
        "deploymentConfig" webServer.Spec.ApplicationName).set "WebServer" webServer.Name := by
  unfold generatePodTemplate at h
  cases himg : webServer.Spec.WebImage with
  | some webImage =>
    simp [himg] at h
    subst h
    simp [generateObjectMeta]
  | none =>
    cases hstream : webServer.Spec.WebImageStream with
    | some webImageStream =>
      simp [himg, hstream] at h
      subst h
      simp [generateObjectMeta]
    | none => simp [himg, hstream] at h

/-- The pod template exists exactly when one of the two image sources is
populated. -/
theorem generatePodTemplate_isSome (r : ReconcileWebServer) (webServer : WebServer)
    (image : String) :
    (generatePodTemplate r webServer image).isSome = true ↔
      webServer.Spec.WebImage ≠ none ∨ webServer.Spec.WebImageStream ≠ none := by
  unfold generatePodTemplate
  cases himg : webServer.Spec.WebImage <;> cases hstream : webServer.Spec.WebImageStream <;>
    simp [himg, hstream]

/-- C19: every generated object lies in the namespace of the custom resource;
the routing Service is named `<applicationName>` and the discovery Service, the
RoleBinding and the ConfigMap are named `webserver-<crName>`, for every custom
resource; the Deployment, generated exactly when the prebuilt image is
populated, and the PersistentVolumeClaim, generated exactly when the web archive
is populated and its size limit is a quantity, are named `<applicationName>`;
the build Pod, generated exactly when the web archive is populated, is named
`<applicationName>-build`. -/
theorem generated_names (MustParse : String → Option resource.Quantity)
    (r : ReconcileWebServer) (webServer : WebServer) :
    ((generateRoutingService r webServer).ObjectMeta.Name = webServer.Spec.ApplicationName ∧
        (generateRoutingService r webServer).ObjectMeta.Namespace = webServer.Namespace) ∧
      ((generateServiceForDNS r webServer).ObjectMeta.Name = "webserver-" ++ webServer.Name ∧
        (generateServiceForDNS r webServer).ObjectMeta.Namespace = webServer.Namespace) ∧
      ((generateRoleBinding r webServer).ObjectMeta.Name = "webserver-" ++ webServer.Name ∧
        (generateRoleBinding r webServer).ObjectMeta.Namespace = webServer.Namespace) ∧
      ((generateConfigMapForDNS r webServer).ObjectMeta.Name = "webserver-" ++ webServer.Name ∧
        (generateConfigMapForDNS r webServer).ObjectMeta.Namespace = webServer.Namespace) ∧
      (((generatePersistentVolumeClaim MustParse r webServer).isSome = true ↔
          ∃ webImage webApp storage, webServer.Spec.WebImage = some webImage ∧
            webImage.WebApp = some webApp ∧
            MustParse webApp.ApplicationSizeLimit = some storage) ∧
        ∀ pvc, generatePersistentVolumeClaim MustParse r webServer = some pvc →
          pvc.ObjectMeta.Name = webServer.Spec.ApplicationName ∧
            pvc.ObjectMeta.Namespace = webServer.Namespace) ∧
      (((generateBuildPod r webServer).isSome = true ↔
          ∃ webImage webApp, webServer.Spec.WebImage = some webImage ∧
            webImage.WebApp = some webApp) ∧
        ∀ pod, generateBuildPod r webServer = some pod →
          pod.ObjectMeta.Name = webServer.Spec.ApplicationName ++ "-build" ∧
            pod.ObjectMeta.Namespace = webServer.Namespace) ∧
      (((generateDeployment r webServer).isSome = true ↔
          ∃ webImage, webServer.Spec.WebImage = some webImage) ∧
        ∀ deployment, generateDeployment r webServer = some deployment →
          deployment.ObjectMeta.Name = webServer.Spec.ApplicationName ∧
            deployment.ObjectMeta.Namespace = webServer.Namespace) := by
  have hset := fun object => controllerutil.SetControllerReference_meta webServer object r.scheme
  refine ⟨?_, ?_, ?_, ?_, ⟨?_, ?_⟩, ⟨?_, ?_⟩, ⟨?_, ?_⟩⟩
  · simp [generateRoutingService, hset, generateObjectMeta]
  · simp [generateServiceForDNS, hset, generateObjectMeta]
  · simp [generateRoleBinding, hset, generateObjectMeta]
  · simp [generateConfigMapForDNS, hset, generateObjectMeta]
  · unfold generatePersistentVolumeClaim
    cases himg : webServer.Spec.WebImage with
    | none => simp
    | some webImage =>
      cases happ : webImage.WebApp with
      | none => simp [happ]
      | some webApp =>
        cases hq : MustParse webApp.ApplicationSizeLimit <;> simp [happ, hq]
  · intro pvc hpvc
    unfold generatePersistentVolumeClaim at hpvc
    cases himg : webServer.Spec.WebImage with
    | none => simp [himg] at hpvc
    | some webImage =>
      cases happ : webImage.WebApp with
      | none => simp [himg, happ] at hpvc
      | some webApp =>
        cases hq : MustParse webApp.ApplicationSizeLimit with
        | none => simp [himg, happ, hq] at hpvc
        | some storage =>
          simp [himg, happ, hq] at hpvc
          subst hpvc
          simp [hset, generateObjectMeta]
  · unfold generateBuildPod
    cases himg : webServer.Spec.WebImage with
    | none => simp
    | some webImage =>
      cases happ : webImage.WebApp <;> simp [happ]
  · intro pod hpod
    unfold generateBuildPod at hpod
    cases himg : webServer.Spec.WebImage with
    | none => simp [himg] at hpod
    | some webImage =>
      cases happ : webImage.WebApp with
      | none => simp [himg, happ] at hpod
      | some webApp =>
        simp [himg, happ] at hpod
        subst hpod
        simp [hset, generateObjectMeta]
  · unfold generateDeployment
    cases himg : webServer.Spec.WebImage with
    | none => simp
    | some webImage => simp [generatePodTemplate, himg]
  · intro deployment hdep
    unfold generateDeployment at hdep
    cases himg : webServer.Spec.WebImage with
    | none => simp [himg] at hdep
    | some webImage =>
      simp [himg, generatePodTemplate] at hdep
      subst hdep
      simp [hset, generateObjectMeta]

/-- C20, as stated, fails on the Deployment of `demoWebServer`: the labels the
Deployment carries hold neither the key `deploymentConfig` nor the key
`WebServer`. -/
theorem generateDeployment_own_labels :
    ∃ deployment, generateDeployment demoReconciler demoWebServer = some deployment ∧
      deployment.ObjectMeta.Labels "deploymentConfig" = none ∧
      deployment.ObjectMeta.Labels "WebServer" = none :=
  ⟨_, rfl, by decide, by decide⟩

/-- C20, amended: the Deployment and the DeploymentConfig carry
`deploymentConfig=<applicationName>` and `WebServer=<crName>` in their selector
and in the labels of their pod template, while the labels of the object itself
are `application=<applicationName>` alone; the Deployment is generated exactly
when the prebuilt image is populated and the DeploymentConfig exactly when one
of the two image sources is.  The discovery Service, the ConfigMap and the
RoleBinding carry the label `application=<applicationName>`. -/
theorem generated_labels (r : ReconcileWebServer) (webServer : WebServer)
    (imageStreamName imageStreamNamespace : String) :
    (((generateDeployment r webServer).isSome = true ↔ webServer.Spec.WebImage ≠ none) ∧
        ∀ deployment, generateDeployment r webServer = some deployment →
          (∃ selector, deployment.Spec.Selector = some selector ∧
            selector.MatchLabels "deploymentConfig" = some webServer.Spec.ApplicationName ∧
            selector.MatchLabels "WebServer" = some webServer.Name) ∧
          deployment.Spec.Template.ObjectMeta.Labels "deploymentConfig" =
            some webServer.Spec.ApplicationName ∧
          deployment.Spec.Template.ObjectMeta.Labels "WebServer" = some webServer.Name ∧
          deployment.ObjectMeta.Labels "application" = some webServer.Spec.ApplicationName ∧
          ∀ key, key ≠ "application" → deployment.ObjectMeta.Labels key = none) ∧
      (((generateDeploymentConfig r webServer imageStreamName imageStreamNamespace).isSome = true ↔
          webServer.Spec.WebImage ≠ none ∨ webServer.Spec.WebImageStream ≠ none) ∧
        ∀ deploymentConfig,
          generateDeploymentConfig r webServer imageStreamName imageStreamNamespace =
            some deploymentConfig →
          deploymentConfig.Spec.Selector "deploymentConfig" =
            some webServer.Spec.ApplicationName ∧
          deploymentConfig.Spec.Selector "WebServer" = some webServer.Name ∧
          (∃ template, deploymentConfig.Spec.Template = some template ∧
            template.ObjectMeta.Labels "deploymentConfig" = some webServer.Spec.ApplicationName ∧
            template.ObjectMeta.Labels "WebServer" = some webServer.Name) ∧
          deploymentConfig.ObjectMeta.Labels "application" =
            some webServer.Spec.ApplicationName ∧
          ∀ key, key ≠ "application" → deploymentConfig.ObjectMeta.Labels key = none) ∧
      (generateServiceForDNS r webServer).ObjectMeta.Labels "application" =
        some webServer.Spec.ApplicationName ∧
      (generateConfigMapForDNS r webServer).ObjectMeta.Labels "application" =
        some webServer.Spec.ApplicationName ∧
      (generateRoleBinding r webServer).ObjectMeta.Labels "application" =
        some webServer.Spec.ApplicationName := by
  have hset := fun object => controllerutil.SetControllerReference_meta webServer object r.scheme
  refine ⟨⟨?_, ?_⟩, ⟨?_, ?_⟩, ?_, ?_, ?_⟩
  · unfold generateDeployment
    cases himg : webServer.Spec.WebImage with
    | none => simp
    | some webImage => simp [generatePodTemplate, himg]
  · intro deployment hdep
    unfold generateDeployment at hdep
    cases himg : webServer.Spec.WebImage with
    | none => simp [himg] at hdep
    | some webImage =>
      cases htpl : generatePodTemplate r webServer webImage.ApplicationImage with
      | none => simp [himg, htpl] at hdep
      | some template =>
        have hlabels := generatePodTemplate_labels r webServer _ template htpl
        simp [himg, htpl] at hdep
        subst hdep
        refine ⟨?_, ?_, ?_, ?_, ?_⟩
        · simp [StringMap.set]
        · simp [hlabels, StringMap.set]
        · simp [hlabels, StringMap.set]
        · simp [hset, generateObjectMeta, StringMap.set]
        · intro key hkey
          simp [hset, generateObjectMeta, StringMap.set, StringMap.empty, hkey]
  · unfold generateDeploymentConfig
    have hsome := generatePodTemplate_isSome r webServer webServer.Spec.ApplicationName
    cases htpl : generatePodTemplate r webServer webServer.Spec.ApplicationName with
    | none =>
      rw [htpl] at hsome
      simpa using hsome
    | some template =>
      rw [htpl] at hsome
      simpa using hsome
  · intro deploymentConfig hdc
    unfold generateDeploymentConfig at hdc
    cases htpl : generatePodTemplate r webServer webServer.Spec.ApplicationName with
    | none => simp [htpl] at hdc
    | some template =>
      have hlabels := generatePodTemplate_labels r webServer _ template htpl
      simp [htpl] at hdc
      subst hdc
      refine ⟨?_, ?_, ?_, ?_, ?_⟩
      · simp [StringMap.set]
      · simp [StringMap.set]
      · simp [hlabels, StringMap.set]
      · simp [hset, generateObjectMeta, StringMap.set]
      · intro key hkey
        simp [hset, generateObjectMeta, StringMap.set, StringMap.empty, hkey]
  · simp [generateServiceForDNS, hset, generateObjectMeta, StringMap.set]
  · simp [generateConfigMapForDNS, hset, generateObjectMeta, StringMap.set]
  · simp [generateRoleBinding, hset, generateObjectMeta, StringMap.set]

/-- The pod template of `archiveWebServer`, which has a web archive and session
clustering, holds the generated mounts and volumes: those of the clustering
ConfigMap, then the archive `ROOT.war` under `/deployments/` from the claim
`demo`, read-only. -/
theorem generateVolumes_web_archive_witness :
    ∃ template,
      generatePodTemplate demoReconciler archiveWebServer "quay.io/x/demo:latest" =
          some template ∧
        template.Spec.Containers.map (fun c => c.VolumeMounts) =
          [[{ Name := "webserver-demo-cr", MountPath := "/test/my-files" },
            { Name := "app-volume", MountPath := "/deployments/ROOT.war",
              SubPath := "ROOT.war" }]] ∧
        template.Spec.Volumes =
          [{ Name := "webserver-demo-cr",
             VolumeSource := { ConfigMap := some { Name := "webserver-demo-cr" } } },
           { Name := "app-volume",
             VolumeSource :=
               { PersistentVolumeClaim := some { ClaimName := "demo", ReadOnly := true } } }] :=
  let ⟨template, htemplate, hmounts, hvolumes, _, _⟩ :=
    (generateVolumes_web_archive demoReconciler archiveWebServer "quay.io/x/demo:latest").1
      archiveImage rootWebApp rfl rfl
  ⟨template, htemplate, hmounts.trans (by decide), hvolumes.trans (by decide)⟩

/-- On `bareWebServer`, whose web archive leaves every optional field empty,
`setDefaultValues` sets the name `ROOT`, the deploy path `/deployments/`, the
size limit `1Gi` and a synthesized build script, and keeps the builder image
and the repository URL. -/
theorem setDefaultValues_eq_witness :
    ∃ script,
      generateWebAppBuildScript
          { bareWebServer with
            Spec := { bareWebServer.Spec with
              WebImage := some { archiveImage with
                WebApp := some { bareWebApp with Name := "ROOT" } } } } = some script ∧
        setDefaultValues bareWebServer =
          some { bareWebServer with
            Spec := { bareWebServer.Spec with
              WebImage := some { archiveImage with
                WebApp := some
                  { Name := "ROOT",
                    SourceRepositoryURL := "https://github.com/jfclere/demo-webapp.git",
                    SourceRepositoryRef := "",
                    SourceRepositoryContextDir := "",
                    DeployPath := "/deployments/",
                    ApplicationSizeLimit := "1Gi",
                    Builder :=
                      { Image := "quay.io/x/builder:latest",
                        ApplicationBuildScript := script } } } } } :=
  (setDefaultValues_eq bareWebServer).1 { archiveImage with WebApp := some bareWebApp }
    bareWebApp rfl rfl

/-! ## Ordinals of uniform width -/

/-- The decimal value read from an accumulator is the accumulator shifted by
the number of digits, plus the value of the digits. -/
theorem foldl_digits_shift (digits : List Char) (acc : Nat) :
    digits.foldl (fun n c => 10 * n + (c.toNat - 48)) acc =
      acc * 10 ^ digits.length + digits.foldl (fun n c => 10 * n + (c.toNat - 48)) 0 := by
  induction digits generalizing acc with
  | nil => simp
  | cons c cs ih =>
    rw [List.foldl_cons, List.foldl_cons, ih, ih (10 * 0 + (c.toNat - 48))]
    simp only [List.length_cons, pow_succ]
    ring

/-- The value of a run of decimal digits is below the power of ten of its
length. -/
theorem foldl_digits_lt (digits : List Char) (hdigits : ∀ c ∈ digits, c.isDigit = true) :
    digits.foldl (fun n c => 10 * n + (c.toNat - 48)) 0 < 10 ^ digits.length := by
  induction digits with
  | nil => simp
  | cons c cs ih =>
    have hc : c.toNat - 48 ≤ 9 := by
      have h := hdigits c (List.mem_cons_self _ _)
      simp only [Char.isDigit, Bool.and_eq_true, decide_eq_true_eq] at h
      have h2 : c.toNat ≤ 57 := h.2
      omega
    have hcs := ih (fun d hd => hdigits d (List.mem_cons_of_mem _ hd))
    have hmul : (c.toNat - 48) * 10 ^ cs.length ≤ 9 * 10 ^ cs.length :=
      Nat.mul_le_mul_right _ hc
    rw [List.foldl_cons, foldl_digits_shift]
    simp only [List.length_cons, pow_succ, Nat.mul_zero, Nat.zero_add]
    omega

/-- Among runs of decimal digits of one length, the run of the smaller value
comes first in the lexicographic order. -/
theorem digits_lt_of_value_lt (x y : List Char) (hlen : x.length = y.length)
    (hx : ∀ c ∈ x, c.isDigit = true) (hy : ∀ c ∈ y, c.isDigit = true)
    (hval : x.foldl (fun n c => 10 * n + (c.toNat - 48)) 0 <
      y.foldl (fun n c => 10 * n + (c.toNat - 48)) 0) :
    x < y := by
  induction x generalizing y with
  | nil =>
    cases y with
    | nil => simp at hval
    | cons d ds => simp at hlen
  | cons c cs ih =>
    cases y with
    | nil => simp at hlen
    | cons d ds =>
      have hlen2 : cs.length = ds.length := by simpa using hlen
      have hcs := fun e he => hx e (List.mem_cons_of_mem _ he)
      have hds := fun e he => hy e (List.mem_cons_of_mem _ he)
      have hc := hx c (List.mem_cons_self _ _)
      have hd := hy d (List.mem_cons_self _ _)
      simp only [Char.isDigit, Bool.and_eq_true, decide_eq_true_eq] at hc hd
      have hc1 : 48 ≤ c.toNat := hc.1
      have hd1 : 48 ≤ d.toNat := hd.1
      have hbx := foldl_digits_lt cs hcs
      have hby := foldl_digits_lt ds hds
      rw [List.foldl_cons, List.foldl_cons, foldl_digits_shift cs, foldl_digits_shift ds,
        hlen2] at hval
      rw [hlen2] at hbx
      rcases Nat.lt_trichotomy c.toNat d.toNat with hlt | heq | hgt
      · exact List.Lex.rel hlt
      · have hcd : c = d := Char.ext (UInt32.ext heq)
        subst hcd
        have hrest : cs.foldl (fun n c => 10 * n + (c.toNat - 48)) 0 <
            ds.foldl (fun n c => 10 * n + (c.toNat - 48)) 0 := by omega
        exact List.Lex.cons (ih ds hlen2 hcs hds hrest)
      · exfalso
        have hstep : (d.toNat - 48 + 1) * 10 ^ ds.length ≤ (c.toNat - 48) * 10 ^ ds.length :=
          Nat.mul_le_mul_right _ (by omega)
        have hexp : (d.toNat - 48 + 1) * 10 ^ ds.length =
            (d.toNat - 48) * 10 ^ ds.length + 10 ^ ds.length := by ring
        simp only [Nat.mul_zero, Nat.zero_add] at hval
        omega

/-- A common beginning does not change the lexicographic order of two lists of
characters. -/
theorem append_lt_append_left (start x y : List Char) (h : x < y) :
    start ++ x < start ++ y := by
  induction start with
  | nil => simpa using h
  | cons c cs ih => exact List.Lex.cons ih

/-- The ordinal of a name `<application>-<digits>` is the value of the
digits. -/
theorem podOrdinal_append (application ordinal : String)
    (hdigits : ∀ c ∈ ordinal.data, c.isDigit = true) :
    podOrdinal (application ++ "-" ++ ordinal) =
      ordinal.data.foldl (fun n c => 10 * n + (c.toNat - 48)) 0 := by
  have hdash : ∀ c ∈ ordinal.data.reverse, (decide (c ≠ '-')) = true := by
    intro c hc
    have h := hdigits c (List.mem_reverse.mp hc)
    simp only [decide_eq_true_eq]
    rintro rfl
    exact absurd h (by decide)
  unfold podOrdinal
  simp only [String.data_append, List.reverse_append]
  rw [List.takeWhile_append_of_pos hdash]
  simp

/-- C21: for a pod list whose names are `<application>-<ordinal>` with one
application and ordinals of decimal digits of one width, the pods that
`sortPodListByName` returns are in ascending numeric order of their ordinals. -/
theorem sortPodListByName_uniform_width (items : List corev1.Pod) (application : String)
    (width : Nat)
    (hnames : ∀ pod ∈ items, ∃ ordinal : String,
      pod.Name = application ++ "-" ++ ordinal ∧ ordinal.length = width ∧
        ∀ c ∈ ordinal.data, c.isDigit = true) :
    ((sortPodListByName items).map (fun pod => podOrdinal pod.Name)).Pairwise
      (fun m n => m ≤ n) := by
  have hsorted : (sortPodListByName items).Pairwise (fun a b => a.Name ≤ b.Name) :=
    sort.SliceStable_pairwise (fun pod : corev1.Pod => pod.Name) _
      (fun a b => stringLess_iff a.Name b.Name) items
  have hmem : ∀ pod ∈ sortPodListByName items, pod ∈ items :=
    fun pod h => (sort.SliceStable_perm _ items).mem_iff.mp h
  rw [List.pairwise_map]
  refine List.Pairwise.imp_of_mem ?_ hsorted
  intro a b ha hb hab
  obtain ⟨oa, hna, hla, hda⟩ := hnames a (hmem a ha)
  obtain ⟨ob, hnb, hlb, hdb⟩ := hnames b (hmem b hb)
  rw [hna, hnb, podOrdinal_append application oa hda, podOrdinal_append application ob hdb]
  by_contra hgt
  have hval := Nat.lt_of_not_le hgt
  have hlex : ob.data < oa.data :=
    digits_lt_of_value_lt ob.data oa.data
      (by rw [← String.length, ← String.length, hla, hlb]) hdb hda hval
  have hname : b.Name < a.Name := by
    rw [hna, hnb, String.lt_iff_toList_lt]
    simp only [String.toList, String.data_append]
    exact append_lt_append_left _ _ _ hlex
  exact absurd hname (not_lt.mpr hab)

/-- The pods `app-02`, `app-10`, `app-01`, with ordinals of two digits, come
back in the order of the ordinals 1, 2, 10. -/
theorem sortPodListByName_uniform_width_witness :
    (sortPodListByName
        [⟨"app-02", ⟨"Running", "10.0.0.2"⟩⟩, ⟨"app-10", ⟨"Running", "10.0.0.10"⟩⟩,
         ⟨"app-01", ⟨"Running", "10.0.0.1"⟩⟩]).map (fun pod => podOrdinal pod.Name) =
        [1, 2, 10] ∧
      ((sortPodListByName
        [⟨"app-02", ⟨"Running", "10.0.0.2"⟩⟩, ⟨"app-10", ⟨"Running", "10.0.0.10"⟩⟩,
         ⟨"app-01", ⟨"Running", "10.0.0.1"⟩⟩]).map (fun pod => podOrdinal pod.Name)).Pairwise
        (fun m n => m ≤ n) :=
  ⟨by decide,
    sortPodListByName_uniform_width _ "app" 2 (by
      intro pod hpod
      simp only [List.mem_cons, List.mem_singleton, List.not_mem_nil, or_false] at hpod
      rcases hpod with rfl | rfl | rfl
      · exact ⟨"02", by decide, by decide, by decide⟩
      · exact ⟨"10", by decide, by decide, by decide⟩
      · exact ⟨"01", by decide, by decide, by decide⟩)⟩

/-! ## Selectors and pod template -/

/-- C22: for a custom resource with exactly one image source populated the pod
template exists, and its labels hold every key with its value of each selector
generated for the pods: of the Deployment, which exists when the prebuilt image
is populated, of the DeploymentConfig, which exists, of the routing Service, of
the discovery Service, and of the pod listing `generateLabelsForWeb` when the
custom resource carries no label. -/
theorem generatePodTemplate_satisfies_selectors (r : ReconcileWebServer)
    (webServer : WebServer) (image imageStreamName imageStreamNamespace : String)
    (hsource : (webServer.Spec.WebImage ≠ none ∧ webServer.Spec.WebImageStream = none) ∨
      (webServer.Spec.WebImage = none ∧ webServer.Spec.WebImageStream ≠ none)) :
    ∃ template, generatePodTemplate r webServer image = some template ∧
      (webServer.Spec.WebImage ≠ none →
        ∃ deployment selector, generateDeployment r webServer = some deployment ∧
          deployment.Spec.Selector = some selector ∧
          ∀ key value, selector.MatchLabels key = some value →
            template.ObjectMeta.Labels key = some value) ∧
      (∃ deploymentConfig,
        generateDeploymentConfig r webServer imageStreamName imageStreamNamespace =
            some deploymentConfig ∧
          ∀ key value, deploymentConfig.Spec.Selector key = some value →
            template.ObjectMeta.Labels key = some value) ∧
      (∀ key value, (generateRoutingService r webServer).Spec.Selector key = some value →
        template.ObjectMeta.Labels key = some value) ∧
      (∀ key value, (generateServiceForDNS r webServer).Spec.Selector key = some value →
        template.ObjectMeta.Labels key = some value) ∧
      ((∀ key, webServer.Labels key = none) →
        ∀ key value, generateLabelsForWeb webServer key = some value →
          template.ObjectMeta.Labels key = some value) := by
  have hsome : webServer.Spec.WebImage ≠ none ∨ webServer.Spec.WebImageStream ≠ none := by
    rcases hsource with h | h
    · exact Or.inl h.1
    · exact Or.inr h.2
  have htemplate : ∀ img, ∃ template, generatePodTemplate r webServer img = some template := by
    intro img
    have h := (generatePodTemplate_isSome r webServer img).mpr hsome
    exact Option.isSome_iff_exists.mp h
  obtain ⟨template, htpl⟩ := htemplate image
  have hlabels := generatePodTemplate_labels r webServer image template htpl
  have hpair : ∀ key value,
      ((StringMap.empty.set "deploymentConfig" webServer.Spec.ApplicationName).set
        "WebServer" webServer.Name) key = some value →
      template.ObjectMeta.Labels key = some value := by
    intro key value h
    rw [hlabels]
    by_cases h1 : key = "WebServer"
    · simpa [StringMap.set, h1] using h
    · by_cases h2 : key = "deploymentConfig"
      · simpa [StringMap.set, h1, h2] using h
      · simp [StringMap.set, StringMap.empty, h1, h2] at h
  refine ⟨template, htpl, ?_, ?_, ?_, ?_, ?_⟩
  · intro himg
    obtain ⟨webImage, himg⟩ := Option.ne_none_iff_exists'.mp himg
    obtain ⟨inner, hinner⟩ := htemplate webImage.ApplicationImage
    refine ⟨_, _, by simp [generateDeployment, himg, hinner]; rfl, rfl, ?_⟩
    exact hpair
  · obtain ⟨inner, hinner⟩ := htemplate webServer.Spec.ApplicationName
    refine ⟨_, by simp [generateDeploymentConfig, hinner]; rfl, ?_⟩
    exact hpair
  · intro key value h
    exact hpair key value (by simpa [generateRoutingService] using h)
  · intro key value h
    rw [hlabels]
    by_cases h0 : key = "application"
    · have hv : webServer.Spec.ApplicationName = value := by
        simpa [generateServiceForDNS, StringMap.set, h0] using h
      simp [StringMap.set, h0, hv]
    · simp [generateServiceForDNS, StringMap.set, StringMap.empty, h0] at h
  · intro hnone key value h
    refine hpair key value ?_
    simpa [generateLabelsForWeb, StringMap.assignAll, hnone] using h

/-- The pod template of `demoWebServer`, which has a prebuilt image, no image
stream and no labels, exists and satisfies the five selectors. -/
theorem generatePodTemplate_satisfies_selectors_witness :
    ∃ template,
      generatePodTemplate demoReconciler demoWebServer "quay.io/x/demo:latest" = some template ∧
        (∀ key value,
          (generateRoutingService demoReconciler demoWebServer).Spec.Selector key = some value →
            template.ObjectMeta.Labels key = some value) ∧
        (∀ key value, generateLabelsForWeb demoWebServer key = some value →
          template.ObjectMeta.Labels key = some value) :=
  let ⟨template, htemplate, _, _, hrouting, _, hlisting⟩ :=
    generatePodTemplate_satisfies_selectors demoReconciler demoWebServer
      "quay.io/x/demo:latest" "demo" "prod" (Or.inl ⟨by decide, rfl⟩)
  ⟨template, htemplate, hrouting, hlisting (fun _ => rfl)⟩

/-! ## Volume mounts and volumes -/

/-- C23: `generateVolumeMounts` and `generateVolumes` return lists of one length
whose entries have, place by place, the same name: every mount names a declared
volume and every declared volume is mounted; the pod template holds these two
lists. -/
theorem generateVolumeMounts_match_volumes (r : ReconcileWebServer) (webServer : WebServer)
    (image : String) :
    (generateVolumeMounts webServer).map (fun mount => mount.Name) =
        (generateVolumes webServer).map (fun volume => volume.Name) ∧
      (generateVolumeMounts webServer).length = (generateVolumes webServer).length ∧
      (∀ mount ∈ generateVolumeMounts webServer,
        ∃ volume ∈ generateVolumes webServer, volume.Name = mount.Name) ∧
      (∀ volume ∈ generateVolumes webServer,
        ∃ mount ∈ generateVolumeMounts webServer, mount.Name = volume.Name) ∧
      (∀ template, generatePodTemplate r webServer image = some template →
        template.Spec.Containers.map (fun c => c.VolumeMounts) =
            [generateVolumeMounts webServer] ∧
          template.Spec.Volumes = generateVolumes webServer) := by
  have hnames : (generateVolumeMounts webServer).map (fun mount => mount.Name) =
      (generateVolumes webServer).map (fun volume => volume.Name) := by
    unfold generateVolumeMounts generateVolumes
    cases hc : webServer.Spec.UseSessionClustering <;>
      cases himg : webServer.Spec.WebImage with
      | none => simp
      | some webImage => cases happ : webImage.WebApp <;> simp [happ]
  refine ⟨hnames, ?_, ?_, ?_, ?_⟩
  · have h := congrArg List.length hnames
    simpa using h
  · intro mount hmount
    have h : mount.Name ∈ (generateVolumes webServer).map (fun volume => volume.Name) := by
      rw [← hnames]
      exact List.mem_map.mpr ⟨mount, hmount, rfl⟩
    obtain ⟨volume, hvolume, heq⟩ := List.mem_map.mp h
    exact ⟨volume, hvolume, heq⟩
  · intro volume hvolume
    have h : volume.Name ∈ (generateVolumeMounts webServer).map (fun mount => mount.Name) := by
      rw [hnames]
      exact List.mem_map.mpr ⟨volume, hvolume, rfl⟩
    obtain ⟨mount, hmount, heq⟩ := List.mem_map.mp h
    exact ⟨mount, hmount, heq⟩
  · intro template htemplate
    exact generatePodTemplate_volumes r webServer image template htemplate

/-! ## Totality of the build configuration -/

/-- C24: for a custom resource with the image stream populated,
`generateEnvBuild` and `generateBuildTriggerPolicy` always return, while
`generateBuildConfig` returns a BuildConfig exactly when the web sources are
present: without them it stops on the dereference of the absent web sources.
The absence of the parameters alone does not stop it. -/
theorem generateBuildConfig_isSome_iff (r : ReconcileWebServer) (webServer : WebServer)
    (webImageStream : webserversv1alpha1.WebImageStreamSpec)
    (hstream : webServer.Spec.WebImageStream = some webImageStream) :
    (generateEnvBuild webServer).isSome = true ∧
      (generateBuildTriggerPolicy webServer).isSome = true ∧
      ((generateBuildConfig r webServer).isSome = true ↔ webImageStream.WebSources ≠ none) ∧
      (webImageStream.WebSources = none → generateBuildConfig r webServer = none) ∧
      (∀ sources, webImageStream.WebSources = some sources →
        sources.WebSourcesParams = none → (generateBuildConfig r webServer).isSome = true) := by
  have henv : (generateEnvBuild webServer).isSome = true := by
    unfold generateEnvBuild
    cases hsrc : webImageStream.WebSources with
    | none => simp [hstream, hsrc]
    | some sources => cases hparams : sources.WebSourcesParams <;> simp [hstream, hsrc, hparams]
  have hpolicy : (generateBuildTriggerPolicy webServer).isSome = true := by
    unfold generateBuildTriggerPolicy
    cases hsrc : webImageStream.WebSources with
    | none => simp [hstream, hsrc]
    | some sources => cases hparams : sources.WebSourcesParams <;> simp [hstream, hsrc, hparams]
  obtain ⟨env, henv2⟩ := Option.isSome_iff_exists.mp henv
  obtain ⟨triggers, hpolicy2⟩ := Option.isSome_iff_exists.mp hpolicy
  have hconfig : ∀ sources, webImageStream.WebSources = some sources →
      (generateBuildConfig r webServer).isSome = true := by
    intro sources hsrc
    simp [generateBuildConfig, hstream, hsrc, henv2, hpolicy2]
  have hnone : webImageStream.WebSources = none → generateBuildConfig r webServer = none := by
    intro hsrc
    simp [generateBuildConfig, hstream, hsrc]
  refine ⟨henv, hpolicy, ?_, hnone, fun sources hsrc _ => hconfig sources hsrc⟩
  constructor
  · intro h hsrc
    rw [hnone hsrc] at h
    simp at h
  · intro h
    obtain ⟨sources, hsrc⟩ := Option.ne_none_iff_exists'.mp h
    exact hconfig sources hsrc

/-- On `sourcelessWebServer`, whose image stream has no web sources, the two
guarded functions return and `generateBuildConfig` does not. -/
theorem generateBuildConfig_isSome_iff_witness :
    generateEnvBuild sourcelessWebServer = some [] ∧
      generateBuildTriggerPolicy sourcelessWebServer =
        some [{ Type_ := "ImageChange", ImageChange := some {} }, { Type_ := "ConfigChange" }] ∧
      generateBuildConfig demoReconciler sourcelessWebServer = none :=
  ⟨by decide, by decide,
    (generateBuildConfig_isSome_iff demoReconciler sourcelessWebServer
      { pipelineStream with WebSources := none } rfl).2.2.2.1 rfl⟩

/-! ## Idempotence of the defaults -/

/-- A string that begins with a non-empty string is not empty. -/
theorem append_ne_empty (a b : String) (h : a ≠ "") : a ++ b ≠ "" := by
  intro hab
  have hdata := congrArg String.data hab
  rw [String.data_append] at hdata
  have hnil : a.data = [] := (List.append_eq_nil.mp hdata).1
  exact h (String.ext hnil)

/-- The synthesized build script is never empty. -/
theorem generateWebAppBuildScript_ne_empty (webServer : WebServer) (script : String)
    (h : generateWebAppBuildScript webServer = some script) : script ≠ "" := by
  unfold generateWebAppBuildScript at h
  cases himg : webServer.Spec.WebImage with
  | none => simp [himg] at h
  | some webImage =>
    cases happ : webImage.WebApp with
    | none => simp [himg, happ] at h
    | some webApp =>
      simp only [himg, happ, Option.bind_eq_bind, Option.some_bind, Option.pure_def,
        Option.some.injEq] at h
      subst h
      repeat apply append_ne_empty
      decide

/-- The script is synthesized for every custom resource with a web archive. -/
theorem generateWebAppBuildScript_isSome (webServer : WebServer)
    (webImage : webserversv1alpha1.WebImageSpec) (webApp : webserversv1alpha1.WebAppSpec)
    (himg : webServer.Spec.WebImage = some webImage) (happ : webImage.WebApp = some webApp) :
    ∃ script, generateWebAppBuildScript webServer = some script := by
  simp [generateWebAppBuildScript, himg, happ]

/-- A custom resource whose web archive has its name, deploy path, size limit
and build script set is returned as it is. -/
theorem setDefaultValues_of_filled (webServer : WebServer)
    (webImage : webserversv1alpha1.WebImageSpec) (webApp : webserversv1alpha1.WebAppSpec)
    (himg : webServer.Spec.WebImage = some webImage) (happ : webImage.WebApp = some webApp)
    (hname : webApp.Name ≠ "") (hpath : webApp.DeployPath ≠ "")
    (hlimit : webApp.ApplicationSizeLimit ≠ "")
    (hscript : webApp.Builder.ApplicationBuildScript ≠ "") :
    setDefaultValues webServer = some webServer := by
  have hstore : storeWebApp webServer webImage webApp = webServer := by
    unfold storeWebApp
    rw [← happ, ← himg]
  simp [setDefaultValues, himg, happ, hname, hpath, hlimit, hscript, hstore]

/-- After `setDefaultValues` the web archive of a custom resource has its name,
deploy path, size limit and build script set. -/
theorem setDefaultValues_filled (webServer : WebServer)
    (webImage : webserversv1alpha1.WebImageSpec) (webApp : webserversv1alpha1.WebAppSpec)
    (himg : webServer.Spec.WebImage = some webImage) (happ : webImage.WebApp = some webApp) :
    ∃ filled, setDefaultValues webServer = some (storeWebApp webServer webImage filled) ∧
      filled.Name ≠ "" ∧ filled.DeployPath ≠ "" ∧ filled.ApplicationSizeLimit ≠ "" ∧
      filled.Builder.ApplicationBuildScript ≠ "" := by
  have hthree : ∃ three : webserversv1alpha1.WebAppSpec,
      three.Name ≠ "" ∧ three.DeployPath ≠ "" ∧ three.ApplicationSizeLimit ≠ "" ∧
      setDefaultValues webServer =
        if three.Builder.ApplicationBuildScript = "" then
          (generateWebAppBuildScript (storeWebApp webServer webImage three)).bind
            (fun script => some (storeWebApp webServer webImage
              { three with
                Builder := { three.Builder with ApplicationBuildScript := script } }))
        else some (storeWebApp webServer webImage three) := by
    refine ⟨if (if (if webApp.Name = "" then { webApp with Name := "ROOT" }
              else webApp).DeployPath = ""
            then { (if webApp.Name = "" then { webApp with Name := "ROOT" } else webApp) with
                   DeployPath := "/deployments/" }
            else (if webApp.Name = "" then { webApp with Name := "ROOT" }
              else webApp)).ApplicationSizeLimit = ""
        then { (if (if webApp.Name = "" then { webApp with Name := "ROOT" }
              else webApp).DeployPath = ""
            then { (if webApp.Name = "" then { webApp with Name := "ROOT" } else webApp) with
                   DeployPath := "/deployments/" }
            else (if webApp.Name = "" then { webApp with Name := "ROOT" } else webApp)) with
               ApplicationSizeLimit := "1Gi" }
        else (if (if webApp.Name = "" then { webApp with Name := "ROOT" }
              else webApp).DeployPath = ""
            then { (if webApp.Name = "" then { webApp with Name := "ROOT" } else webApp) with
                   DeployPath := "/deployments/" }
            else (if webApp.Name = "" then { webApp with Name := "ROOT" } else webApp)),
      ?_, ?_, ?_, ?_⟩
    · by_cases hn : webApp.Name = "" <;> by_cases hd : webApp.DeployPath = "" <;>
        by_cases hl : webApp.ApplicationSizeLimit = "" <;> simp [hn, hd, hl]
    · by_cases hn : webApp.Name = "" <;> by_cases hd : webApp.DeployPath = "" <;>
        by_cases hl : webApp.ApplicationSizeLimit = "" <;> simp [hn, hd, hl]
    · by_cases hn : webApp.Name = "" <;> by_cases hd : webApp.DeployPath = "" <;>
        by_cases hl : webApp.ApplicationSizeLimit = "" <;> simp [hn, hd, hl]
    · simp only [setDefaultValues, himg, happ, Option.bind_eq_bind, Option.pure_def]
  obtain ⟨three, h1, h2, h3, hset⟩ := hthree
  by_cases hs : three.Builder.ApplicationBuildScript = ""
  · obtain ⟨script, hscript⟩ :=
      generateWebAppBuildScript_isSome (storeWebApp webServer webImage three)
        { webImage with WebApp := some three } three rfl rfl
    refine ⟨{ three with Builder := { three.Builder with ApplicationBuildScript := script } },
      ?_, h1, h2, h3, generateWebAppBuildScript_ne_empty _ script hscript⟩
    rw [hset, if_pos hs, hscript]
    rfl
  · exact ⟨three, by rw [hset, if_neg hs], h1, h2, h3, hs⟩

/-- C25: `setDefaultValues` is idempotent: it returns for every custom resource,
and applied to the custom resource it returned it returns that custom resource
again; after one application the name, the deploy path, the size limit and the
build script of a web archive are all set. -/
theorem setDefaultValues_idempotent (webServer : WebServer) :
    ∃ result, setDefaultValues webServer = some result ∧
      setDefaultValues result = some result ∧
      (setDefaultValues webServer).bind setDefaultValues = setDefaultValues webServer ∧
      ∀ webImage webApp, result.Spec.WebImage = some webImage →
        webImage.WebApp = some webApp →
        webApp.Name ≠ "" ∧ webApp.DeployPath ≠ "" ∧ webApp.ApplicationSizeLimit ≠ "" ∧
          webApp.Builder.ApplicationBuildScript ≠ "" := by
  cases himg : webServer.Spec.WebImage with
  | none =>
    have hset : setDefaultValues webServer = some webServer := by
      simp [setDefaultValues, himg]
    refine ⟨webServer, hset, hset, by simp [hset], ?_⟩
    intro webImage webApp h
    rw [himg] at h
    exact absurd h (by simp)
  | some webImage =>
    cases happ : webImage.WebApp with
    | none =>
      have hset : setDefaultValues webServer = some webServer := by
        simp [setDefaultValues, himg, happ]
      refine ⟨webServer, hset, hset, by simp [hset], ?_⟩
      intro webImage2 webApp h happ2
      rw [himg] at h
      cases h
      rw [happ] at happ2
      exact absurd happ2 (by simp)
    | some webApp =>
      obtain ⟨filled, hset, h1, h2, h3, h4⟩ :=
        setDefaultValues_filled webServer webImage webApp himg happ
      have hagain : setDefaultValues (storeWebApp webServer webImage filled) =
          some (storeWebApp webServer webImage filled) :=
        setDefaultValues_of_filled _ { webImage with WebApp := some filled } filled rfl rfl
          h1 h2 h3 h4
      refine ⟨_, hset, hagain, by simp [hset, hagain], ?_⟩
      intro webImage2 webApp2 h happ2
      have h' : webImage2 = { webImage with WebApp := some filled } := by
        simpa [storeWebApp] using h.symm
      subst h'
      have h'' : webApp2 = filled := by simpa using happ2.symm
      subst h''
      exact ⟨h1, h2, h3, h4⟩

/-- On `bareWebServer`, whose web archive leaves every optional field empty,
the custom resource that `setDefaultValues` returns is returned again by a second
application. -/
theorem setDefaultValues_idempotent_witness :
    ∃ result, setDefaultValues bareWebServer = some result ∧
      setDefaultValues result = some result :=
  let ⟨result, hfirst, hsecond, _⟩ := setDefaultValues_idempotent bareWebServer
  ⟨result, hfirst, hsecond⟩
